import Mathlib
/-!
# Verification development for the EduToon educational webtoon generator
A shallow embedding of the pipeline pieces of the repository: the story-data
validator and content persister (`utils.py`), the layout configuration
(`config.py`), the retrying scene-image requester and the webtoon compositor
(`app_enhanced.py`, with the older variants from `app.py`).
Python dictionaries holding parsed JSON are embedded as an explicit JSON value
type (`JValue`); PIL images are embedded as a term tracking the observable
structure used by this code base: canvas dimensions, background colour, drawn
text and the log of pasted sub-images.  External collaborators (the Gemini
endpoints, the base64 codec and PIL's decoders) are abstracted as function
parameters; everything else is translated from the source.
-/

/-- JSON values, the shape of the data Python's `json` module exchanges with
the generator and the validator (`utils.py`).  Numbers of the story payloads
are integers (`scene_number`), so the numeric case is `Int`.  Objects are
association lists in insertion order, matching Python's `dict`. -/
inductive JValue : Type where
  | str (s : String)
  | int (n : Int)
  | bool (b : Bool)
  | null
  | list (xs : List JValue)
  | obj (kvs : List (String × JValue))

/-- Python truthiness of a JSON value: empty containers, empty strings, zero,
`False` and `None` are falsy. -/
def JValue.isTruthy : JValue → Bool
  | .str s => !s.isEmpty
  | .int n => n != 0
  | .bool b => b
  | .null => false
  | .list xs => !xs.isEmpty
  | .obj kvs => !kvs.isEmpty

/-- Membership test `key in d` on a Python dict embedded as an association
list. -/
def hasKey (key : String) (kvs : List (String × JValue)) : Bool :=
  kvs.any (fun kv => kv.1 == key)

/-- Lookup `d[key]` / `d.get(key)` on a Python dict.  Keys of a Python dict
are unique, so first-match lookup is the dict semantics. -/
def getKey (key : String) (kvs : List (String × JValue)) : Option JValue :=
  List.lookup key kvs

/-- `d.get(key, default)`. -/
def getKeyD (key : String) (kvs : List (String × JValue)) (dflt : JValue) : JValue :=
  (getKey key kvs).getD dflt

/-- The `WEBTOON_CONFIG` dictionary of `config.py`. -/
structure WebtoonConfig where
  panel_width : Nat
  panel_height : Nat
  padding : Nat
  title_height : Nat
  max_scenes : Nat
  min_scenes : Nat
deriving DecidableEq, Repr

/-- `config.WEBTOON_CONFIG`: panel 800×600, padding 20, title band 100. -/
def WEBTOON_CONFIG : WebtoonConfig :=
  ⟨800, 600, 20, 100, 10, 3⟩

/-- The `IMAGE_CONFIG` dictionary of `config.py` (the fields this development
uses). -/
structure ImageConfig where
  max_retries : Nat
  retry_delay : Nat
deriving DecidableEq, Repr

/-- `config.IMAGE_CONFIG`: 3 attempts, 1 time-unit delay between attempts. -/
def IMAGE_CONFIG : ImageConfig :=
  ⟨3, 1⟩

/-- The required top-level fields of `utils.validate_story_data`:
`required_fields = ["title", "concept", "scenes"]`. -/
def required_fields : List String :=
  ["title", "concept", "scenes"]

/-- The required per-scene fields of `utils.validate_story_data`:
`required_scene_fields = [...]` (seven fields). -/
def required_scene_fields : List String :=
  ["scene_number", "location", "characters", "dialogue", "action",
   "educational_point", "visual_description"]

/-- One iteration of the scene loop of `utils.validate_story_data`: the scene
must be a dict, carry every required scene field, and its `characters` value
must be a list. -/
def validScene : JValue → Bool
  | .obj kvs =>
    required_scene_fields.all (fun f => hasKey f kvs) &&
      (match getKey "characters" kvs with
       | some (.list _) => true
       | _ => false)
  | _ => false

/-- `utils.validate_story_data` (utils.py lines 238–267): the payload must be
a dict carrying `title`, `concept` and `scenes`; `scenes` must be a non-empty
list; every scene must pass `validScene`.  (When all required fields are
present, `story_data.get("scenes", [])` is the stored `scenes` value.) -/
def validate_story_data : JValue → Bool
  | .obj kvs =>
    if required_fields.all (fun f => hasKey f kvs) then
      match getKeyD "scenes" kvs (.list []) with
      | .list scenes => !scenes.isEmpty && scenes.all validScene
      | _ => false
    else false
  | _ => false

/-- PIL images as used by this code base.  `canvas` is an `Image.new` result
together with the text drawn on it and the log of pasted sub-images with their
positions (PIL pastes mutate the canvas; the embedding threads the updated
value instead).  `external` is an opaque image produced outside the compositor
(a decoded API payload or a loaded asset), known only by an identifier and its
size.  `resized` is an `img.resize((w, h), LANCZOS)` result, which PIL returns
as a fresh image of exactly the requested size. -/
inductive PILImage : Type where
  | canvas (width height : Nat) (bg : String)
      (texts : List (String × String)) (pastes : List (PILImage × Nat × Nat))
  | external (id : Nat) (width height : Nat)
  | resized (src : PILImage) (width height : Nat)

/-- The width of a PIL image. -/
def PILImage.width : PILImage → Nat
  | .canvas w _ _ _ _ => w
  | .external _ w _ => w
  | .resized _ w _ => w

/-- The height of a PIL image. -/
def PILImage.height : PILImage → Nat
  | .canvas _ h _ _ _ => h
  | .external _ _ h => h
  | .resized _ _ h => h

/-- `draw.text(..., message, fill=...)` on a canvas: record the drawn string
and its fill.  The pixel position is computed from font metrics of the
ambient font (`arial.ttf` or PIL's default), which are external to this code
base and not modelled.  Drawing on a non-canvas image does not occur in the
embedded code. -/
def PILImage.drawText (img : PILImage) (message fill : String) : PILImage :=
  match img with
  | .canvas w h bg texts pastes => .canvas w h bg (texts ++ [(message, fill)]) pastes
  | other => other

/-- `canvas.paste(img, (x, y))`: append to the paste log.  Pasting onto a
non-canvas image does not occur in the embedded code. -/
def PILImage.paste (img sub : PILImage) (pos : Nat × Nat) : PILImage :=
  match img with
  | .canvas w h bg texts pastes => .canvas w h bg texts (pastes ++ [(sub, pos)])
  | other => other

/-- The paste log of a canvas (empty for non-canvas images). -/
def PILImage.pasteLog : PILImage → List (PILImage × Nat × Nat)
  | .canvas _ _ _ _ pastes => pastes
  | _ => []

/-- `utils.create_error_image(width, height, message)` (utils.py lines
269–290): a `lightgray` RGB canvas of exactly the requested size with the
failure caption drawn centred in black.  The Python signature defaults
`message` to `"Image generation failed"`; call sites in this file pass the
message explicitly. -/
def create_error_image (width height : Nat) (message : String) : PILImage :=
  (PILImage.canvas width height "lightgray" [] []).drawText message "black"

/-- One part of a Gemini response candidate's content.  `text` covers parts
without usable inline data (`part.inline_data is None`); `inline` carries the
`inline_data.data` payload bytes, with `[]` embedding a falsy (absent or
empty) payload. -/
inductive RespPart : Type where
  | text (s : String)
  | inline (data : List Nat)

/-- One response candidate: `candidate.content` is `None` or carries a
(possibly empty) list of parts. -/
structure Candidate : Type where
  content : Option (List RespPart)

/-- Outcome of one `client.models.generate_content` call: the call raises, or
returns a response with a list of candidates. -/
inductive CallResult : Type where
  | raises
  | response (candidates : List Candidate)

/-- The decode attempt applied to one non-empty inline payload
(`app_enhanced.py` lines 356–363): the `try` block base64-decodes the payload
and opens the result as an image; on any exception the raw payload is opened
instead.  The base64 codec and PIL's `Image.open` are external collaborators,
passed as `b64` and `imgOpen`, with `none` embedding a raised exception. -/
def decodeInline (b64 : List Nat → Option (List Nat))
    (imgOpen : List Nat → Option PILImage) (data : List Nat) :
    Option PILImage :=
  match (b64 data).bind imgOpen with
  | some img => some img
  | none => imgOpen data

/-- The part loop of the image extraction (`app_enhanced.py` lines 354–364,
identically `app.py` lines 236–246): scan the candidate's parts in order; skip
parts without a truthy inline payload; at the first part with one, return the
decoded image — or, if both decode paths fail, let the exception escape the
loop (`Except.error`), because the raw-open fallback is not inside a `try`. -/
def extractImage (b64 : List Nat → Option (List Nat))
    (imgOpen : List Nat → Option PILImage) :
    List RespPart → Except Unit (Option PILImage)
  | [] => .ok none
  | .text _ :: rest => extractImage b64 imgOpen rest
  | .inline [] :: rest => extractImage b64 imgOpen rest
  | .inline (b :: bs) :: _ =>
    match decodeInline b64 imgOpen (b :: bs) with
    | some img => .ok (some img)
    | none => .error ()

/-- The response unpacking around the part loop (`app_enhanced.py` lines
351–364): only the first candidate is examined, and only when it exists and
its content carries a non-empty part list. -/
def extractFromResponse (b64 : List Nat → Option (List Nat))
    (imgOpen : List Nat → Option PILImage) :
    List Candidate → Except Unit (Option PILImage)
  | [] => .ok none
  | c :: _ =>
    match c.content with
    | none => .ok none
    | some [] => .ok none
    | some (p :: ps) => extractImage b64 imgOpen (p :: ps)

/-- The three ways one attempt of the retry loop can end: an image was
extracted, the response carried no image, or an exception was raised (by the
call itself or by an undecodable first inline payload). -/
inductive AttemptResult : Type where
  | success (img : PILImage)
  | noImage
  | raised

/-- One attempt of the retry loop (`app_enhanced.py` lines 342–364): perform
the call for this attempt index and classify its outcome. -/
def runAttempt (call : Nat → CallResult) (b64 : List Nat → Option (List Nat))
    (imgOpen : List Nat → Option PILImage) (attempt : Nat) : AttemptResult :=
  match call attempt with
  | .raises => .raised
  | .response cands =>
    match extractFromResponse b64 imgOpen cands with
    | .ok (some img) => .success img
    | .ok none => .noImage
    | .error _ => .raised

/-- Observable outcome of `generate_scene_image_with_retry`: the returned
image, the number of attempts performed, the list of inter-attempt sleep
durations in order, and whether the returned image is the error placeholder
appended after the loop. -/
structure RetryTrace : Type where
  image : PILImage
  attempts : Nat
  sleeps : List Nat
  usedPlaceholder : Bool

/-- The `for attempt in range(max_retries)` loop of
`generate_scene_image_with_retry` (`app_enhanced.py` lines 341–377), unrolled
over the remaining iteration count.  A successful attempt returns its image at
once; a failed attempt sleeps `retry_delay` unless it is the last
(`attempt < max_retries - 1`) and continues; an exhausted loop falls through
to `create_error_image(panel_width, panel_height)` (default message). -/
def retryGo (step : Nat → AttemptResult) (maxRetries : Nat) :
    Nat → Nat → RetryTrace
  | _, 0 =>
    ⟨create_error_image WEBTOON_CONFIG.panel_width WEBTOON_CONFIG.panel_height
        "Image generation failed", 0, [], true⟩
  | attempt, remaining + 1 =>
    match step attempt with
    | .success img => ⟨img, 1, [], false⟩
    | _ =>
      let s : List Nat :=
        if attempt < maxRetries - 1 then [IMAGE_CONFIG.retry_delay] else []
      let t := retryGo step maxRetries (attempt + 1) remaining
      ⟨t.image, t.attempts + 1, s ++ t.sleeps, t.usedPlaceholder⟩

namespace EnhancedWebtoonGenerator
/-- `EnhancedWebtoonGenerator.generate_scene_image_with_retry`
(`app_enhanced.py` lines 268–377).  Returns `none` exactly when the client is
not initialized (line 270–271); otherwise runs the retry loop from attempt 0
with the full budget `IMAGE_CONFIG.max_retries`.  Prompt assembly and the
reference-image inputs do not affect the embedded observables and are folded
into the abstract per-attempt call. -/
def generate_scene_image_with_retry (clientInitialized : Bool)
    (call : Nat → CallResult) (b64 : List Nat → Option (List Nat))
    (imgOpen : List Nat → Option PILImage) : Option RetryTrace :=
  if clientInitialized then
    some (retryGo (runAttempt call b64 imgOpen) IMAGE_CONFIG.max_retries 0
      IMAGE_CONFIG.max_retries)
  else
    none

/-- `story_data.get("title", "Educational Webtoon")` as consumed by
`draw.text`: absent falls back to the default; a present non-string value
would make PIL's text draw raise, embedded as `Except.error`. -/
def titleOf (kvs : List (String × JValue)) : Except String String :=
  match getKey "title" kvs with
  | none => .ok "Educational Webtoon"
  | some (.str s) => .ok s
  | some _ => .error "TypeError"

/-- The image pasted into panel slot `i` by the scene loop of
`create_enhanced_webtoon_layout` (`app_enhanced.py` lines 415–423): a present
image is resized to exactly (panel_width, panel_height); an absent entry is
replaced by `create_error_image(panel_width, panel_height, "Scene i+1")`. -/
def slotImage (i : Nat) : Option PILImage → PILImage
  | some im =>
    .resized im WEBTOON_CONFIG.panel_width WEBTOON_CONFIG.panel_height
  | none =>
    create_error_image WEBTOON_CONFIG.panel_width WEBTOON_CONFIG.panel_height
      ("Scene " ++ toString (i + 1))

/-- The scene loop of `create_enhanced_webtoon_layout` (`app_enhanced.py`
lines 413–425): walk `zip(scenes, scene_images)` with the 1-indexed caption
counter `i` and the running vertical offset `current_y`, pasting each slot's
image at `(padding, current_y)` and advancing by `panel_height + padding`. -/
def pasteScenes (canvas : PILImage) (y i : Nat) :
    List (JValue × Option PILImage) → PILImage
  | [] => canvas
  | (_, img) :: rest =>
    pasteScenes (canvas.paste (slotImage i img) (WEBTOON_CONFIG.padding, y))
      (y + WEBTOON_CONFIG.panel_height + WEBTOON_CONFIG.padding) (i + 1) rest

/-- `EnhancedWebtoonGenerator.create_enhanced_webtoon_layout`
(`app_enhanced.py` lines 379–427).  Returns `Except.ok none` exactly when the
guard `not story_data or "scenes" not in story_data or not scene_images`
fires; otherwise allocates a white canvas of width `panel_width + 2*padding`
and height `title_height + (panel_height + padding)*len(scenes) + padding*2`,
draws the title centred in the title band, and pastes every slot of
`zip(scenes, scene_images)` from `current_y = title_height + padding`.  A
truthy non-list `scenes` value would flow into `len`/`zip` duck-typing, which
this code base never produces; it is embedded as `Except.error`. -/
def create_enhanced_webtoon_layout (story_data : List (String × JValue))
    (scene_images : List (Option PILImage)) : Except String (Option PILImage) :=
  if story_data.isEmpty || !hasKey "scenes" story_data || scene_images.isEmpty then
    .ok none
  else
    match getKey "scenes" story_data with
    | some (.list scenes) =>
      let pw := WEBTOON_CONFIG.panel_width
      let ph := WEBTOON_CONFIG.panel_height
      let pad := WEBTOON_CONFIG.padding
      let th := WEBTOON_CONFIG.title_height
      let total_height := th + (ph + pad) * scenes.length + pad * 2
      let canvas := PILImage.canvas (pw + 2 * pad) total_height "white" [] []
      match titleOf story_data with
      | .error e => .error e
      | .ok t =>
        .ok (some (pasteScenes (canvas.drawText t "black") (th + pad) 0
          (scenes.zip scene_images)))
    | _ => .error "TypeError"

end EnhancedWebtoonGenerator
namespace WebtoonGenerator
/-- The scene loop of `WebtoonGenerator.create_webtoon_layout` (`app.py`
lines 276–282): walk `zip(scenes, scene_images)`, pasting only present images
(resized to the panel size) and advancing `current_y` for every slot, present
or not. -/
def pasteOptScenes (canvas : PILImage) (y : Nat) :
    List (JValue × Option PILImage) → PILImage
  | [] => canvas
  | (_, img) :: rest =>
    let canvas1 :=
      match img with
      | some im => canvas.paste (.resized im 800 600) (20, y)
      | none => canvas
    pasteOptScenes canvas1 (y + 600 + 20) rest

/-- `WebtoonGenerator.create_webtoon_layout` (`app.py` lines 255–284).
Returns `Except.ok none` when `story_data` is absent or falsy, when
`story_data.get("scenes")` is falsy (absent, empty list, or any other falsy
value), or when the image sequence is empty.  Otherwise allocates a white
canvas — the dimensions are the literals 800/600/20/100 of the function body —
with height `title_height + (panel_height + padding)*len(scenes) + padding`,
draws no title, and pastes from `current_y = padding`.  A truthy non-list
`scenes` value is embedded as `Except.error` as in the enhanced variant. -/
def create_webtoon_layout (story_data : Option (List (String × JValue)))
    (scene_images : List (Option PILImage)) : Except String (Option PILImage) :=
  match story_data with
  | none => .ok none
  | some kvs =>
    if kvs.isEmpty || !(getKeyD "scenes" kvs .null).isTruthy || scene_images.isEmpty then
      .ok none
    else
      match getKey "scenes" kvs with
      | some (.list scenes) =>
        let total_height := 100 + (600 + 20) * scenes.length + 20
        let canvas := PILImage.canvas (800 + 2 * 20) total_height "white" [] []
        .ok (some (pasteOptScenes canvas 20 (scenes.zip scene_images)))
      | _ => .error "TypeError"

end WebtoonGenerator
/-- JSON whitespace, as skipped by Python's `json` scanner. -/
def isWsC (c : Char) : Bool :=
  c = ' ' || c = '\n' || c = '\t' || c = '\r'

/-- Skip leading JSON whitespace. -/
def skipWs (input : List Char) : List Char :=
  input.dropWhile isWsC

/-- The decimal digit character for `n < 10`. -/
def digitChar (n : Nat) : Char :=
  Char.ofNat (48 + n)

/-- Accumulate the decimal digits of `n` (most significant first) in front of
`acc`. -/
def natDigitsAux (n : Nat) (acc : List Char) : List Char :=
  if n = 0 then acc
  else natDigitsAux (n / 10) (digitChar (n % 10) :: acc)
termination_by n
decreasing_by exact Nat.div_lt_self (Nat.pos_of_ne_zero (by assumption)) (by omega)

/-- Decimal rendering of a natural number, as Python's `json` writes it. -/
def natDigits (n : Nat) : List Char :=
  if n = 0 then ['0'] else natDigitsAux n []

/-- Decimal rendering of an integer. -/
def serInt : Int → List Char
  | .ofNat n => natDigits n
  | .negSucc n => '-' :: natDigits (n + 1)

/-- Lower-case hexadecimal digit for `n < 16`, as in Python's `\uXXXX`
escapes. -/
def hexDigitChar (n : Nat) : Char :=
  if n < 10 then digitChar n else Char.ofNat (87 + n)

/-- The escape Python's `json` encoder (with `ensure_ascii=False`) applies to
one character of a string: `"` and `\` get a backslash escape, the five named
control characters get their short escapes, the remaining control characters
get `\u00XX`, and everything else is written verbatim. -/
def escChar (c : Char) : List Char :=
  if c = '"' then ['\\', '"']
  else if c = '\\' then ['\\', '\\']
  else if c = '\n' then ['\\', 'n']
  else if c = '\r' then ['\\', 'r']
  else if c = '\t' then ['\\', 't']
  else if c.toNat = 8 then ['\\', 'b']
  else if c.toNat = 12 then ['\\', 'f']
  else if c.toNat < 32 then
    ['\\', 'u', '0', '0', hexDigitChar (c.toNat / 16), hexDigitChar (c.toNat % 16)]
  else [c]

/-- A JSON string literal: quote, escaped characters, closing quote. -/
def serString (s : String) : List Char :=
  '"' :: s.data.flatMap escChar ++ ['"']

/-- The newline-plus-indentation Python's `json.dump(..., indent=2)` writes
before each container item at nesting depth `d`. -/
def nlIndent (d : Nat) : List Char :=
  '\n' :: List.replicate (2 * d) ' '

mutual

/-- The text `json.dump(value, f, indent=2, ensure_ascii=False)` writes for a
value at nesting depth `d` (utils.py line 306 dumps at depth 0).  Empty
containers print as `[]`/`\x7b\x7d`; non-empty containers put every item on
its own indented line, separate items with `,` and keys from values with
`: `. -/
def serValue : JValue → Nat → List Char
  | .str s, _ => serString s
  | .int n, _ => serInt n
  | .bool true, _ => "true".data
  | .bool false, _ => "false".data
  | .null, _ => "null".data
  | .list [], _ => ['[', ']']
  | .list (x :: xs), d =>
    '[' :: (serElems (x :: xs) d ++ nlIndent d ++ [']'])
  | .obj [], _ => ['\x7b', '\x7d']
  | .obj (kv :: kvs), d =>
    '\x7b' :: (serMembers (kv :: kvs) d ++ nlIndent d ++ ['\x7d'])

/-- The serialized members of a non-empty object at depth `d`. -/
def serMembers : List (String × JValue) → Nat → List Char
  | [], _ => []
  | [(k, v)], d =>
    nlIndent (d + 1) ++ serString k ++ [':', ' '] ++ serValue v (d + 1)
  | (k, v) :: kv :: kvs, d =>
    nlIndent (d + 1) ++ serString k ++ [':', ' '] ++ serValue v (d + 1) ++
      ',' :: serMembers (kv :: kvs) d

/-- The serialized elements of a non-empty array at depth `d`. -/
def serElems : List JValue → Nat → List Char
  | [], _ => []
  | [x], d => nlIndent (d + 1) ++ serValue x (d + 1)
  | x :: y :: xs, d =>
    nlIndent (d + 1) ++ serValue x (d + 1) ++ ',' :: serElems (y :: xs) d

end

/-- Is `c` a decimal digit? -/
def isDigitC (c : Char) : Bool :=
  48 ≤ c.toNat && c.toNat ≤ 57

/-- The value of a decimal digit character. -/
def digitVal (c : Char) : Nat :=
  c.toNat - 48

/-- Consume a maximal run of decimal digits, extending the accumulator. -/
def parseDigitsAux (acc : Nat) : List Char → Nat × List Char
  | [] => (acc, [])
  | c :: rest =>
    if isDigitC c then parseDigitsAux (acc * 10 + digitVal c) rest
    else (acc, c :: rest)

/-- Parse a non-empty run of decimal digits off the front of the input. -/
def parseNat : List Char → Option (Nat × List Char)
  | [] => none
  | c :: rest =>
    if isDigitC c then some (parseDigitsAux (digitVal c) rest) else none

/-- The value of a short escape character, if it is one. -/
def unescSimple (e : Char) : Option Char :=
  if e = '"' then some '"'
  else if e = '\\' then some '\\'
  else if e = '/' then some '/'
  else if e = 'n' then some '\n'
  else if e = 'r' then some '\r'
  else if e = 't' then some '\t'
  else if e = 'b' then some (Char.ofNat 8)
  else if e = 'f' then some (Char.ofNat 12)
  else none

/-- The value of a hexadecimal digit character, if it is one. -/
def hexVal (c : Char) : Option Nat :=
  if 48 ≤ c.toNat && c.toNat ≤ 57 then some (c.toNat - 48)
  else if 97 ≤ c.toNat && c.toNat ≤ 102 then some (c.toNat - 87)
  else if 65 ≤ c.toNat && c.toNat ≤ 70 then some (c.toNat - 55)
  else none

/-- Parse the body of a JSON string literal (the opening quote already
consumed): unescape until the closing quote, returning the content and the
input after the quote. -/
def parseStringBody : List Char → Option (List Char × List Char)
  | [] => none
  | c :: rest =>
    if c = '"' then some ([], rest)
    else if c = '\\' then
      match rest with
      | [] => none
      | e :: rest2 =>
        if e = 'u' then
          match rest2 with
          | h1 :: h2 :: h3 :: h4 :: rest3 =>
            match hexVal h1, hexVal h2, hexVal h3, hexVal h4 with
            | some a, some b, some x, some y =>
              match parseStringBody rest3 with
              | some (cs, r) =>
                some (Char.ofNat (((a * 16 + b) * 16 + x) * 16 + y) :: cs, r)
              | none => none
            | _, _, _, _ => none
          | _ => none
        else
          match unescSimple e with
          | some c1 =>
            match parseStringBody rest2 with
            | some (cs, r) => some (c1 :: cs, r)
            | none => none
          | none => none
    else
      match parseStringBody rest with
      | some (cs, r) => some (c :: cs, r)
      | none => none

/-- Expect the given characters verbatim at the front of the input. -/
def expectChars : List Char → List Char → Option (List Char)
  | [], input => some input
  | _ :: _, [] => none
  | p :: ps, c :: rest => if c = p then expectChars ps rest else none

mutual

/-- A recursive-descent JSON reader, the embedding of Python's `json.load`
value scanner.  `fuel` bounds the nesting recursion; any fuel at least the
size of the value suffices (`sizeJ_le_serLength`). -/
def parseValue : Nat → List Char → Option (JValue × List Char)
  | 0, _ => none
  | fuel + 1, input =>
    match skipWs input with
    | [] => none
    | c :: rest =>
      if c = '\x7b' then
        match skipWs rest with
        | [] => none
        | d :: r2 =>
          if d = '\x7d' then some (.obj [], r2)
          else
            match parseMembers fuel (d :: r2) with
            | some (kvs, r3) => some (.obj kvs, r3)
            | none => none
      else if c = '[' then
        match skipWs rest with
        | [] => none
        | d :: r2 =>
          if d = ']' then some (.list [], r2)
          else
            match parseElems fuel (d :: r2) with
            | some (xs, r3) => some (.list xs, r3)
            | none => none
      else if c = '"' then
        match parseStringBody rest with
        | some (cs, r) => some (.str (String.mk cs), r)
        | none => none
      else if c = '-' then
        match parseNat rest with
        | some (n, r) => some (.int (-(n : Int)), r)
        | none => none
      else if isDigitC c then
        match parseNat (c :: rest) with
        | some (n, r) => some (.int (n : Int), r)
        | none => none
      else if c = 't' then
        (expectChars ['r', 'u', 'e'] rest).map (fun r => (.bool true, r))
      else if c = 'f' then
        (expectChars ['a', 'l', 's', 'e'] rest).map (fun r => (.bool false, r))
      else if c = 'n' then
        (expectChars ['u', 'l', 'l'] rest).map (fun r => (.null, r))
      else none

/-- Members of a non-empty JSON object, consuming the closing brace. -/
def parseMembers : Nat → List Char → Option (List (String × JValue) × List Char)
  | 0, _ => none
  | fuel + 1, input =>
    match skipWs input with
    | [] => none
    | c :: rest =>
      if c = '"' then
        match parseStringBody rest with
        | none => none
        | some (kcs, r1) =>
          match skipWs r1 with
          | [] => none
          | d :: r2 =>
            if d = ':' then
              match parseValue fuel r2 with
              | none => none
              | some (v, r3) =>
                match skipWs r3 with
                | [] => none
                | e :: r4 =>
                  if e = ',' then
                    match parseMembers fuel r4 with
                    | none => none
                    | some (kvs, r5) => some ((String.mk kcs, v) :: kvs, r5)
                  else if e = '\x7d' then some ([(String.mk kcs, v)], r4)
                  else none
            else none
      else none

/-- Elements of a non-empty JSON array, consuming the closing bracket. -/
def parseElems : Nat → List Char → Option (List JValue × List Char)
  | 0, _ => none
  | fuel + 1, input =>
    match parseValue fuel input with
    | none => none
    | some (x, r1) =>
      match skipWs r1 with
      | [] => none
      | e :: r2 =>
        if e = ',' then
          match parseElems fuel r2 with
          | none => none
          | some (xs, r3) => some (x :: xs, r3)
        else if e = ']' then some ([x], r2)
        else none

end

/-- Python's `json.load` on a whole document: parse one value and require
only whitespace to remain (extra data raises, embedded as `none`). -/
def json_loads (input : List Char) : Option JValue :=
  match parseValue (input.length + 1) input with
  | some (v, rest) => if (skipWs rest).isEmpty then some v else none
  | none => none

/-- Content of one file written by the persister: the structured-data text or
a PNG-encoded image. -/
inductive FileData : Type where
  | jsonText (content : List Char)
  | png (img : PILImage)

/-- The persisted layout `save_generated_content` produces: the created
directory path and the files written inside it, in write order. -/
structure SaveResult : Type where
  dir : String
  files : List (String × FileData)

/-- `utils.save_generated_content(story_data, images)` (utils.py lines
292–314): create `output/webtoon_<timestamp>`, write `story_data.json` with
`json.dump(story_data, f, indent=2, ensure_ascii=False)`, then write each
present image as `scene_<i+1>.png` (1-indexed scene position); absent entries
are skipped.  The filesystem and clock are external; the timestamp is a
parameter and files are returned as data. -/
def save_generated_content (story_data : JValue) (images : List (Option PILImage))
    (timestamp : String) : SaveResult :=
  let story_dir := "output/webtoon_" ++ timestamp
  let storyFile := ("story_data.json", FileData.jsonText (serValue story_data 0))
  let imageFiles := images.enum.filterMap (fun p =>
    match p.2 with
    | some img => some ("scene_" ++ toString (p.1 + 1) ++ ".png", FileData.png img)
    | none => none)
  ⟨story_dir, storyFile :: imageFiles⟩

/-- `true` when the input does not start with a decimal digit, so that a
maximal digit run ending at the front of it is read back unchanged. -/
def headNotDigit : List Char → Bool
  | [] => true
  | c :: _ => !isDigitC c

/-- The accumulator step of the decimal reader. -/
def digitStep (a : Nat) (c : Char) : Nat := a * 10 + digitVal c

mutual

/-- Fuel measure for `parseValue`: the structural size of a value. -/
def sizeV : JValue → Nat
  | .str _ => 1
  | .int _ => 1
  | .bool _ => 1
  | .null => 1
  | .list xs => 1 + sizeE xs
  | .obj kvs => 1 + sizeM kvs

/-- Fuel measure for `parseMembers`. -/
def sizeM : List (String × JValue) → Nat
  | [] => 0
  | (_, v) :: rest => 1 + sizeV v + sizeM rest

/-- Fuel measure for `parseElems`. -/
def sizeE : List JValue → Nat
  | [] => 0
  | x :: rest => 1 + sizeV x + sizeE rest

end

namespace EnhancedWebtoonGenerator
/-- The pastes the scene loop performs, one per zipped slot, with the running
vertical offsets made explicit. -/
def slotPastes (y i : Nat) : List (JValue × Option PILImage) →
    List (PILImage × Nat × Nat)
  | [] => []
  | (_, img) :: rest =>
    (slotImage i img, (WEBTOON_CONFIG.padding, y)) ::
      slotPastes (y + WEBTOON_CONFIG.panel_height + WEBTOON_CONFIG.padding) (i + 1) rest

end EnhancedWebtoonGenerator
namespace WebtoonGenerator
/-- The pastes the app.py scene loop performs: present images only, offsets
advancing for every slot. -/
def appSlotPastes (y : Nat) : List (JValue × Option PILImage) →
    List (PILImage × Nat × Nat)
  | [] => []
  | (_, img) :: rest =>
    match img with
    | some im => (PILImage.resized im 800 600, (20, y)) :: appSlotPastes (y + 600 + 20) rest
    | none => appSlotPastes (y + 600 + 20) rest

end WebtoonGenerator
/-- Does the part carry a truthy inline payload (the
`part.inline_data is not None and part.inline_data.data` test)? -/
def isImageBearing : RespPart → Bool
  | .inline (_ :: _) => true
  | _ => false


theorem create_error_image_width (w h : Nat) (m : String) :
    (create_error_image w h m).width = w := rfl

theorem create_error_image_height (w h : Nat) (m : String) :
    (create_error_image w h m).height = h := rfl

theorem toNat_digitChar (n : Nat) (h : n < 10) : (digitChar n).toNat = 48 + n := by
  interval_cases n <;> decide

theorem isDigitC_digitChar (n : Nat) (h : n < 10) : isDigitC (digitChar n) = true := by
  interval_cases n <;> decide

theorem digitVal_digitChar (n : Nat) (h : n < 10) : digitVal (digitChar n) = n := by
  interval_cases n <;> decide

theorem natDigitsAux_eq (n : Nat) (acc : List Char) :
    natDigitsAux n acc =
      if n = 0 then acc else natDigitsAux (n / 10) (digitChar (n % 10) :: acc) := by
  rw [natDigitsAux]

theorem natDigitsAux_acc (n : Nat) : ∀ acc : List Char,
    natDigitsAux n acc = natDigitsAux n [] ++ acc := by
  induction n using Nat.strong_induction_on with
  | _ n ih =>
    intro acc
    by_cases hn : n = 0
    · subst hn; simp [natDigitsAux_eq]
    · rw [natDigitsAux_eq n acc, if_neg hn, natDigitsAux_eq n [], if_neg hn,
        ih (n / 10) (Nat.div_lt_self (Nat.pos_of_ne_zero hn) (by omega)),
        ih (n / 10) (Nat.div_lt_self (Nat.pos_of_ne_zero hn) (by omega))
          [digitChar (n % 10)]]
      simp

theorem natDigitsAux_digits (n : Nat) :
    ∀ c ∈ natDigitsAux n [], isDigitC c = true := by
  induction n using Nat.strong_induction_on with
  | _ n ih =>
    intro c hc
    by_cases hn : n = 0
    · subst hn; simp [natDigitsAux] at hc
    · rw [natDigitsAux_eq n [], if_neg hn,
        natDigitsAux_acc (n / 10) [digitChar (n % 10)]] at hc
      rcases List.mem_append.1 hc with h | h
      · exact ih (n / 10) (Nat.div_lt_self (Nat.pos_of_ne_zero hn) (by omega)) c h
      · simp at h
        subst h
        exact isDigitC_digitChar _ (Nat.mod_lt _ (by omega))

theorem natDigits_digits (n : Nat) : ∀ c ∈ natDigits n, isDigitC c = true := by
  intro c hc
  by_cases hn : n = 0
  · subst hn; simp [natDigits] at hc; subst hc; decide
  · rw [natDigits, if_neg hn] at hc
    exact natDigitsAux_digits n c hc

theorem natDigitsAux_ne_nil (n : Nat) (hn : n ≠ 0) : natDigitsAux n [] ≠ [] := by
  rw [natDigitsAux_eq n [], if_neg hn, natDigitsAux_acc]
  simp

theorem foldl_natDigitsAux (n : Nat) (hn : n ≠ 0) : ∀ a : Nat,
    List.foldl digitStep a (natDigitsAux n []) =
      a * 10 ^ (natDigitsAux n []).length + n := by
  induction n using Nat.strong_induction_on with
  | _ n ih =>
    intro a
    have hrec : natDigitsAux n [] = natDigitsAux (n / 10) [] ++ [digitChar (n % 10)] := by
      rw [natDigitsAux_eq n [], if_neg hn, natDigitsAux_acc]
    by_cases h10 : n / 10 = 0
    · have hlt : n < 10 := by omega
      rw [hrec, h10]
      simp [natDigitsAux_eq, digitStep, digitVal_digitChar _ (Nat.mod_lt _ (by omega))]
      omega
    · rw [hrec, List.foldl_append, List.length_append,
        ih (n / 10) (Nat.div_lt_self (Nat.pos_of_ne_zero hn) (by omega)) h10 a]
      simp only [List.foldl_cons, List.foldl_nil, List.length_cons, List.length_nil]
      rw [digitStep, digitVal_digitChar _ (Nat.mod_lt _ (by omega))]
      have e1 : (a * 10 ^ (natDigitsAux (n / 10) []).length + n / 10) * 10 + n % 10 =
          a * 10 ^ ((natDigitsAux (n / 10) []).length + 1) + (n / 10 * 10 + n % 10) := by
        rw [pow_succ]; ring
      rw [e1]
      congr 1
      omega

theorem foldl_natDigits (n : Nat) :
    List.foldl digitStep 0 (natDigits n) = n := by
  by_cases hn : n = 0
  · subst hn; decide
  · rw [natDigits, if_neg hn, foldl_natDigitsAux n hn 0]
    simp

theorem parseDigitsAux_append (ds : List Char) (hds : ∀ c ∈ ds, isDigitC c = true) :
    ∀ (a : Nat) (rest : List Char), headNotDigit rest = true →
      parseDigitsAux a (ds ++ rest) = (List.foldl digitStep a ds, rest) := by
  induction ds with
  | nil =>
    intro a rest hrest
    cases rest with
    | nil => simp [parseDigitsAux]
    | cons c r =>
      simp only [headNotDigit, Bool.not_eq_true'] at hrest
      simp [parseDigitsAux, hrest]
  | cons c ds ih =>
    intro a rest hrest
    have hc : isDigitC c = true := hds c (by simp)
    simp only [List.cons_append, parseDigitsAux, hc, if_true, List.append_eq]
    rw [ih (fun x hx => hds x (by simp [hx])) _ rest hrest]
    simp [digitStep]

theorem parseNat_natDigits (n : Nat) (rest : List Char)
    (hrest : headNotDigit rest = true) :
    parseNat (natDigits n ++ rest) = some (n, rest) := by
  have hne : natDigits n ≠ [] := by
    by_cases hn : n = 0
    · subst hn; simp [natDigits]
    · rw [natDigits, if_neg hn]; exact natDigitsAux_ne_nil n hn
  cases hd : natDigits n with
  | nil => exact absurd hd hne
  | cons c ds =>
    have hc : isDigitC c = true := natDigits_digits n c (by rw [hd]; simp)
    have hds : ∀ x ∈ ds, isDigitC x = true := fun x hx =>
      natDigits_digits n x (by rw [hd]; simp [hx])
    simp only [List.cons_append, parseNat, hc, if_true, List.append_eq]
    rw [parseDigitsAux_append ds hds _ rest hrest]
    have : List.foldl digitStep (digitVal c) ds = n := by
      have := foldl_natDigits n
      rw [hd] at this
      simpa [digitStep] using this
    rw [this]

theorem stringMk_data (s : String) : String.mk s.data = s := by
  cases s
  rfl

theorem hexVal_hexDigitChar (n : Nat) (h : n < 16) :
    hexVal (hexDigitChar n) = some n := by
  interval_cases n <;> decide

theorem skipWs_cons_not (c : Char) (l : List Char) (h : isWsC c = false) :
    skipWs (c :: l) = c :: l := by
  simp [skipWs, List.dropWhile_cons, h]

theorem skipWs_cons_ws (c : Char) (l : List Char) (h : isWsC c = true) :
    skipWs (c :: l) = skipWs l := by
  simp [skipWs, List.dropWhile_cons, h]

theorem skipWs_all_ws (l : List Char) (h : ∀ c ∈ l, isWsC c = true) :
    ∀ rest : List Char, skipWs (l ++ rest) = skipWs rest := by
  induction l with
  | nil => intro rest; rfl
  | cons c l ih =>
    intro rest
    rw [List.cons_append, skipWs_cons_ws c _ (h c (by simp))]
    exact ih (fun x hx => h x (by simp [hx])) rest

theorem skipWs_nlIndent (d : Nat) (rest : List Char) :
    skipWs (nlIndent d ++ rest) = skipWs rest := by
  apply skipWs_all_ws
  intro c hc
  simp only [nlIndent, List.mem_cons] at hc
  rcases hc with h | h
  · subst h; decide
  · rw [List.eq_of_mem_replicate h]; decide

theorem skipWs_skipWs (l : List Char) : skipWs (skipWs l) = skipWs l := by
  induction l with
  | nil => rfl
  | cons c l ih =>
    by_cases h : isWsC c = true
    · rw [skipWs_cons_ws c l h]; exact ih
    · rw [skipWs_cons_not c l (by simpa using h), skipWs_cons_not c l (by simpa using h)]

theorem hexVal_zeroChar : hexVal '0' = some 0 := by decide

theorem psb_quote (rest : List Char) :
    parseStringBody ('"' :: rest) = some ([], rest) := by
  rw [parseStringBody.eq_def]
  simp

theorem psb_raw (c : Char) (rest cs r : List Char) (h1 : ¬c = '"') (h2 : ¬c = '\\')
    (h : parseStringBody rest = some (cs, r)) :
    parseStringBody (c :: rest) = some (c :: cs, r) := by
  rw [parseStringBody.eq_def]
  simp only [if_neg h1, if_neg h2, h]

theorem psb_esc (e c1 : Char) (rest2 cs r : List Char) (he : ¬e = 'u')
    (hu : unescSimple e = some c1) (h : parseStringBody rest2 = some (cs, r)) :
    parseStringBody ('\\' :: e :: rest2) = some (c1 :: cs, r) := by
  rw [parseStringBody.eq_def]
  simp only [reduceIte, reduceCtorEq, if_neg he, hu, h]
  rw [if_neg (show ('\\' : Char) = '"' → False by decide)]

theorem psb_u (h1 h2 h3 h4 : Char) (a b x y : Nat) (rest3 cs r : List Char)
    (e1 : hexVal h1 = some a) (e2 : hexVal h2 = some b) (e3 : hexVal h3 = some x)
    (e4 : hexVal h4 = some y) (h : parseStringBody rest3 = some (cs, r)) :
    parseStringBody ('\\' :: 'u' :: h1 :: h2 :: h3 :: h4 :: rest3) =
      some (Char.ofNat (((a * 16 + b) * 16 + x) * 16 + y) :: cs, r) := by
  rw [parseStringBody.eq_def]
  simp only [reduceIte, reduceCtorEq, e1, e2, e3, e4, h]
  rw [if_neg (show ('\\' : Char) = '"' → False by decide)]

theorem parseStringBody_escape (cs : List Char) : ∀ rest : List Char,
    parseStringBody (cs.flatMap escChar ++ '"' :: rest) = some (cs, rest) := by
  induction cs with
  | nil => intro rest; exact psb_quote rest
  | cons c cs ih =>
    intro rest
    rw [List.flatMap_cons, List.append_assoc]
    by_cases hc1 : c = '"'
    · subst hc1
      rw [show escChar '"' = ['\\', '"'] by decide, List.cons_append,
        List.cons_append, List.nil_append]
      exact psb_esc _ _ _ _ _ (by decide) (by decide) (ih rest)
    · by_cases hc2 : c = '\\'
      · subst hc2
        rw [show escChar '\\' = ['\\', '\\'] by decide, List.cons_append,
          List.cons_append, List.nil_append]
        exact psb_esc _ _ _ _ _ (by decide) (by decide) (ih rest)
      · by_cases hc3 : c = '\n'
        · subst hc3
          rw [show escChar '\n' = ['\\', 'n'] by decide, List.cons_append,
            List.cons_append, List.nil_append]
          exact psb_esc _ _ _ _ _ (by decide) (by decide) (ih rest)
        · by_cases hc4 : c = '\r'
          · subst hc4
            rw [show escChar '\r' = ['\\', 'r'] by decide, List.cons_append,
              List.cons_append, List.nil_append]
            exact psb_esc _ _ _ _ _ (by decide) (by decide) (ih rest)
          · by_cases hc5 : c = '\t'
            · subst hc5
              rw [show escChar '\t' = ['\\', 't'] by decide, List.cons_append,
                List.cons_append, List.nil_append]
              exact psb_esc _ _ _ _ _ (by decide) (by decide) (ih rest)
            · by_cases hc6 : c.toNat = 8
              · rw [show c = Char.ofNat 8 by rw [← hc6, Char.ofNat_toNat],
                  show escChar (Char.ofNat 8) = ['\\', 'b'] by decide,
                  List.cons_append, List.cons_append, List.nil_append]
                exact psb_esc _ _ _ _ _ (by decide) (by decide) (ih rest)
              · by_cases hc7 : c.toNat = 12
                · rw [show c = Char.ofNat 12 by rw [← hc7, Char.ofNat_toNat],
                    show escChar (Char.ofNat 12) = ['\\', 'f'] by decide,
                    List.cons_append, List.cons_append, List.nil_append]
                  exact psb_esc _ _ _ _ _ (by decide) (by decide) (ih rest)
                · by_cases hc8 : c.toNat < 32
                  · rw [show escChar c =
                        ['\\', 'u', '0', '0', hexDigitChar (c.toNat / 16),
                          hexDigitChar (c.toNat % 16)] by
                        simp [escChar, hc1, hc2, hc3, hc4, hc5, hc6, hc7, hc8]]
                    simp only [List.cons_append, List.nil_append]
                    rw [psb_u _ _ _ _ 0 0 (c.toNat / 16) (c.toNat % 16) _ _ _
                      hexVal_zeroChar hexVal_zeroChar
                      (hexVal_hexDigitChar _ (by omega)) (hexVal_hexDigitChar _ (by omega))
                      (ih rest)]
                    rw [show ((0 * 16 + 0) * 16 + c.toNat / 16) * 16 + c.toNat % 16
                          = c.toNat by omega, Char.ofNat_toNat]
                  · rw [show escChar c = [c] by
                        simp [escChar, hc1, hc2, hc3, hc4, hc5, hc6, hc7, hc8],
                      List.singleton_append]
                    exact psb_raw c _ cs rest hc1 hc2 (ih rest)

theorem sizeV_pos (v : JValue) : 1 ≤ sizeV v := by
  cases v <;> simp [sizeV]

theorem sizeV_list_eq (xs : List JValue) : sizeV (.list xs) = 1 + sizeE xs := by
  simp [sizeV]

theorem sizeV_obj_eq (kvs : List (String × JValue)) :
    sizeV (.obj kvs) = 1 + sizeM kvs := by
  simp [sizeV]

theorem sizeM_cons_eq (k : String) (v : JValue) (kvs : List (String × JValue)) :
    sizeM ((k, v) :: kvs) = 1 + sizeV v + sizeM kvs := by
  simp [sizeM]

theorem sizeE_cons_eq (x : JValue) (xs : List JValue) :
    sizeE (x :: xs) = 1 + sizeV x + sizeE xs := by
  simp [sizeE]

theorem sizeM_nil_eq : sizeM [] = 0 := by
  simp [sizeM]

theorem natDigits_ne_nil (n : Nat) : natDigits n ≠ [] := by
  by_cases hn : n = 0
  · subst hn; simp [natDigits]
  · rw [natDigits, if_neg hn]; exact natDigitsAux_ne_nil n hn

theorem isDigitC_not_ws (c : Char) (h : isDigitC c = true) : isWsC c = false := by
  simp only [isDigitC, Bool.and_eq_true, decide_eq_true_eq] at h
  simp only [isWsC, Bool.or_eq_false_iff, decide_eq_false_iff_not]
  refine ⟨⟨⟨fun hc => ?_, fun hc => ?_⟩, fun hc => ?_⟩, fun hc => ?_⟩ <;>
    (subst hc; revert h; decide)

theorem isDigitC_ne_delims (c : Char) (h : isDigitC c = true) :
    c ≠ '\x7b' ∧ c ≠ '[' ∧ c ≠ '"' ∧ c ≠ '-' ∧ c ≠ ']' ∧ c ≠ '\x7d' := by
  simp only [isDigitC, Bool.and_eq_true, decide_eq_true_eq] at h
  refine ⟨fun hc => ?_, fun hc => ?_, fun hc => ?_, fun hc => ?_, fun hc => ?_,
    fun hc => ?_⟩ <;> (subst hc; revert h; decide)

theorem expectChars_append (ps : List Char) : ∀ rest : List Char,
    expectChars ps (ps ++ rest) = some rest := by
  induction ps with
  | nil => intro rest; rfl
  | cons p ps ih => intro rest; simp [expectChars, ih]

/-- The first character of any serialized value: never whitespace, never a
closing delimiter. -/
theorem serValue_head (v : JValue) (d : Nat) :
    ∃ c t, serValue v d = c :: t ∧ isWsC c = false ∧ c ≠ ']' ∧ c ≠ '\x7d' := by
  cases v with
  | str s =>
    exact ⟨'"', s.data.flatMap escChar ++ ['"'], by simp [serValue, serString],
      by decide, by decide, by decide⟩
  | int n =>
    cases n with
    | ofNat m =>
      obtain ⟨c, t, hct⟩ := List.exists_cons_of_ne_nil (natDigits_ne_nil m)
      have hc : isDigitC c = true := natDigits_digits m c (by rw [hct]; simp)
      refine ⟨c, t, ?_, isDigitC_not_ws c hc, ?_, ?_⟩
      · rw [show serValue (.int (.ofNat m)) d = natDigits m by simp [serValue, serInt]]
        exact hct
      · exact (isDigitC_ne_delims c hc).2.2.2.2.1
      · exact (isDigitC_ne_delims c hc).2.2.2.2.2
    | negSucc m =>
      exact ⟨'-', natDigits (m + 1), by simp [serValue, serInt], by decide,
        by decide, by decide⟩
  | bool b =>
    cases b with
    | true => exact ⟨'t', ['r', 'u', 'e'], by simp [serValue], by decide,
        by decide, by decide⟩
    | false => exact ⟨'f', ['a', 'l', 's', 'e'], by simp [serValue], by decide,
        by decide, by decide⟩
  | null => exact ⟨'n', ['u', 'l', 'l'], by simp [serValue], by decide,
      by decide, by decide⟩
  | list xs =>
    cases xs with
    | nil => exact ⟨'[', [']'], by simp [serValue], by decide, by decide, by decide⟩
    | cons x xs =>
      exact ⟨'[', serElems (x :: xs) d ++ (nlIndent d ++ [']']),
        by simp [serValue], by decide, by decide, by decide⟩
  | obj kvs =>
    cases kvs with
    | nil =>
      exact ⟨'\x7b', ['\x7d'], by simp [serValue], by decide, by decide, by decide⟩
    | cons kv kvs =>
      exact ⟨'\x7b', serMembers (kv :: kvs) d ++ (nlIndent d ++ ['\x7d']),
        by simp [serValue], by decide, by decide, by decide⟩

theorem skipWs_serValue (v : JValue) (d : Nat) (rest : List Char) :
    skipWs (serValue v d ++ rest) = serValue v d ++ rest := by
  obtain ⟨c, t, hct, hws, _, _⟩ := serValue_head v d
  rw [hct, List.cons_append, skipWs_cons_not _ _ hws]

theorem pv_obj_empty (fuel : Nat) (input tail r2 : List Char)
    (h1 : skipWs input = '\x7b' :: tail) (h2 : skipWs tail = '\x7d' :: r2) :
    parseValue (fuel + 1) input = some (.obj [], r2) := by
  rw [parseValue.eq_def]
  simp only [h1, h2, reduceIte]

theorem pv_obj_step (fuel : Nat) (input tail d0 r2 kvs r3)
    (h1 : skipWs input = '\x7b' :: tail) (h2 : skipWs tail = d0 :: r2)
    (hd0 : ¬d0 = '\x7d') (hm : parseMembers fuel (d0 :: r2) = some (kvs, r3)) :
    parseValue (fuel + 1) input = some (.obj kvs, r3) := by
  rw [parseValue.eq_def]
  simp only [h1, h2, reduceIte, if_neg hd0, hm]

theorem pv_list_empty (fuel : Nat) (input tail r2 : List Char)
    (h1 : skipWs input = '[' :: tail) (h2 : skipWs tail = ']' :: r2) :
    parseValue (fuel + 1) input = some (.list [], r2) := by
  rw [parseValue.eq_def]
  simp only [h1, h2, reduceIte]
  rfl

theorem pv_list_step (fuel : Nat) (input tail d0 r2 xs r3)
    (h1 : skipWs input = '[' :: tail) (h2 : skipWs tail = d0 :: r2)
    (hd0 : ¬d0 = ']') (he : parseElems fuel (d0 :: r2) = some (xs, r3)) :
    parseValue (fuel + 1) input = some (.list xs, r3) := by
  rw [parseValue.eq_def]
  simp only [h1, h2, reduceIte, if_neg hd0, he]
  rfl

theorem pv_str (fuel : Nat) (input tail cs r)
    (h1 : skipWs input = '"' :: tail) (h2 : parseStringBody tail = some (cs, r)) :
    parseValue (fuel + 1) input = some (.str (String.mk cs), r) := by
  rw [parseValue.eq_def]
  simp only [h1, h2, reduceIte]
  rfl

theorem pv_neg (fuel : Nat) (input tail n r)
    (h1 : skipWs input = '-' :: tail) (h2 : parseNat tail = some (n, r)) :
    parseValue (fuel + 1) input = some (.int (-(n : Int)), r) := by
  rw [parseValue.eq_def]
  simp only [h1, h2, reduceIte]
  rfl

theorem pv_nat (fuel : Nat) (input c tail n r)
    (h1 : skipWs input = c :: tail) (hc : isDigitC c = true)
    (h2 : parseNat (c :: tail) = some (n, r)) :
    parseValue (fuel + 1) input = some (.int (n : Int), r) := by
  obtain ⟨hne1, hne2, hne3, hne4, _, _⟩ := isDigitC_ne_delims c hc
  rw [parseValue.eq_def]
  simp only [h1, if_neg hne1, if_neg hne2, if_neg hne3, if_neg hne4, hc,
    if_true, h2]

theorem pv_true (fuel : Nat) (input tail r)
    (h1 : skipWs input = 't' :: tail) (h2 : expectChars ['r', 'u', 'e'] tail = some r) :
    parseValue (fuel + 1) input = some (.bool true, r) := by
  rw [parseValue.eq_def]
  simp only [h1, h2, reduceIte, Option.map_some]
  rw [if_neg (show isDigitC 't' = true → False by decide)]
  rfl

theorem pv_false (fuel : Nat) (input tail r)
    (h1 : skipWs input = 'f' :: tail)
    (h2 : expectChars ['a', 'l', 's', 'e'] tail = some r) :
    parseValue (fuel + 1) input = some (.bool false, r) := by
  rw [parseValue.eq_def]
  simp only [h1, h2, reduceIte, Option.map_some]
  rw [if_neg (show isDigitC 'f' = true → False by decide)]
  rfl

theorem pv_null (fuel : Nat) (input tail r)
    (h1 : skipWs input = 'n' :: tail) (h2 : expectChars ['u', 'l', 'l'] tail = some r) :
    parseValue (fuel + 1) input = some (.null, r) := by
  rw [parseValue.eq_def]
  simp only [h1, h2, reduceIte, Option.map_some]
  rw [if_neg (show isDigitC 'n' = true → False by decide)]
  rfl

theorem pm_last (fuel : Nat) (input t1 kcs r1 r2 v r3 r4)
    (h1 : skipWs input = '"' :: t1) (h2 : parseStringBody t1 = some (kcs, r1))
    (h3 : skipWs r1 = ':' :: r2) (h4 : parseValue fuel r2 = some (v, r3))
    (h5 : skipWs r3 = '\x7d' :: r4) :
    parseMembers (fuel + 1) input = some ([(String.mk kcs, v)], r4) := by
  rw [parseMembers.eq_def]
  simp only [h1, h2, h3, h4, h5, reduceIte]
  rfl

theorem pm_cons (fuel : Nat) (input t1 kcs r1 r2 v r3 r4 kvs r5)
    (h1 : skipWs input = '"' :: t1) (h2 : parseStringBody t1 = some (kcs, r1))
    (h3 : skipWs r1 = ':' :: r2) (h4 : parseValue fuel r2 = some (v, r3))
    (h5 : skipWs r3 = ',' :: r4) (h6 : parseMembers fuel r4 = some (kvs, r5)) :
    parseMembers (fuel + 1) input = some ((String.mk kcs, v) :: kvs, r5) := by
  rw [parseMembers.eq_def]
  simp only [h1, h2, h3, h4, h5, h6, reduceIte]

theorem pe_last (fuel : Nat) (input x r1 r2)
    (h1 : parseValue fuel input = some (x, r1)) (h2 : skipWs r1 = ']' :: r2) :
    parseElems (fuel + 1) input = some ([x], r2) := by
  rw [parseElems.eq_def]
  simp only [h1, h2, reduceIte]
  rfl

theorem pe_cons (fuel : Nat) (input x r1 r2 xs r3)
    (h1 : parseValue fuel input = some (x, r1)) (h2 : skipWs r1 = ',' :: r2)
    (h3 : parseElems fuel r2 = some (xs, r3)) :
    parseElems (fuel + 1) input = some (x :: xs, r3) := by
  rw [parseElems.eq_def]
  simp only [h1, h2, h3, reduceIte]

theorem neg_natCast_succ (m : Nat) : -((m + 1 : Nat) : Int) = Int.negSucc m := by
  rw [Int.negSucc_eq]
  push_cast
  ring

theorem serElems_cons_eq (x : JValue) (xs : List JValue) (d : Nat) :
    ∃ Z, serElems (x :: xs) d = nlIndent (d + 1) ++ (serValue x (d + 1) ++ Z) := by
  cases xs with
  | nil => exact ⟨[], by simp [serElems]⟩
  | cons y ys => exact ⟨',' :: serElems (y :: ys) d, by simp [serElems]⟩

theorem serMembers_cons_eq (k : String) (v : JValue) (kvs : List (String × JValue))
    (d : Nat) :
    ∃ Z, serMembers ((k, v) :: kvs) d =
      nlIndent (d + 1) ++ ('"' :: (k.data.flatMap escChar ++
        ('"' :: ':' :: ' ' :: (serValue v (d + 1) ++ Z)))) := by
  cases kvs with
  | nil =>
    refine ⟨[], ?_⟩
    simp [serMembers, serString]
  | cons kv2 kvs2 =>
    refine ⟨',' :: serMembers (kv2 :: kvs2) d, ?_⟩
    simp [serMembers, serString]

theorem serMembers_cons_eq2 (kv : String × JValue) (kvs : List (String × JValue))
    (d : Nat) :
    ∃ Z, serMembers (kv :: kvs) d =
      nlIndent (d + 1) ++ ('"' :: (kv.1.data.flatMap escChar ++
        ('"' :: ':' :: ' ' :: (serValue kv.2 (d + 1) ++ Z)))) := by
  obtain ⟨k, v⟩ := kv
  exact serMembers_cons_eq k v kvs d

theorem sizeM_cons_eq2 (kv : String × JValue) (kvs : List (String × JValue)) :
    sizeM (kv :: kvs) = 1 + sizeV kv.2 + sizeM kvs := by
  obtain ⟨k, v⟩ := kv
  exact sizeM_cons_eq k v kvs

mutual

/-- Reading back a serialized value: any input whose whitespace-stripped form
is the serialization of `v` followed by `rest` (not starting with a digit)
parses to exactly `v`, leaving `rest`. -/
theorem parseValue_ser (v : JValue) (d fuel : Nat) (rest input : List Char)
    (hfuel : sizeV v ≤ fuel) (hrest : headNotDigit rest = true)
    (hinput : skipWs input = serValue v d ++ rest) :
    parseValue fuel input = some (v, rest) := by
  cases fuel with
  | zero => exact absurd hfuel (by have := sizeV_pos v; omega)
  | succ f =>
    cases v with
    | str s =>
      have h1 : skipWs input = '"' :: (s.data.flatMap escChar ++ '"' :: rest) := by
        rw [hinput]; simp [serValue, serString]
      rw [pv_str f input _ s.data rest h1 (parseStringBody_escape s.data rest),
        stringMk_data]
    | int n =>
      cases n with
      | ofNat m =>
        obtain ⟨c, t, hct⟩ := List.exists_cons_of_ne_nil (natDigits_ne_nil m)
        have hc : isDigitC c = true := natDigits_digits m c (by rw [hct]; simp)
        have h1 : skipWs input = c :: (t ++ rest) := by
          rw [hinput]; simp [serValue, serInt, hct]
        have h2 : parseNat (c :: (t ++ rest)) = some (m, rest) := by
          rw [show c :: (t ++ rest) = natDigits m ++ rest by rw [hct]; simp]
          exact parseNat_natDigits m rest hrest
        exact pv_nat f input c (t ++ rest) m rest h1 hc h2
      | negSucc m =>
        have h1 : skipWs input = '-' :: (natDigits (m + 1) ++ rest) := by
          rw [hinput]; simp [serValue, serInt]
        rw [pv_neg f input _ (m + 1) rest h1 (parseNat_natDigits (m + 1) rest hrest),
          neg_natCast_succ]
    | bool b =>
      cases b with
      | true =>
        have h1 : skipWs input = 't' :: (['r', 'u', 'e'] ++ rest) := by
          rw [hinput]; simp [serValue]
        exact pv_true f input _ rest h1 (expectChars_append ['r', 'u', 'e'] rest)
      | false =>
        have h1 : skipWs input = 'f' :: (['a', 'l', 's', 'e'] ++ rest) := by
          rw [hinput]; simp [serValue]
        exact pv_false f input _ rest h1 (expectChars_append ['a', 'l', 's', 'e'] rest)
    | null =>
      have h1 : skipWs input = 'n' :: (['u', 'l', 'l'] ++ rest) := by
        rw [hinput]; simp [serValue]
      exact pv_null f input _ rest h1 (expectChars_append ['u', 'l', 'l'] rest)
    | list xs =>
      cases xs with
      | nil =>
        have h1 : skipWs input = '[' :: (']' :: rest) := by
          rw [hinput]; simp [serValue]
        exact pv_list_empty f input _ rest h1
          (skipWs_cons_not ']' rest (by decide))
      | cons x xs =>
        obtain ⟨Z, hZ⟩ := serElems_cons_eq x xs d
        obtain ⟨c, t, hct, hws, hcr, _⟩ := serValue_head x (d + 1)
        have h1 : skipWs input =
            '[' :: (serElems (x :: xs) d ++ (nlIndent d ++ ']' :: rest)) := by
          rw [hinput]; simp [serValue]
        have htail : skipWs (serElems (x :: xs) d ++ (nlIndent d ++ ']' :: rest)) =
            c :: (t ++ (Z ++ (nlIndent d ++ ']' :: rest))) := by
          rw [hZ, List.append_assoc, skipWs_nlIndent, List.append_assoc, hct,
            List.cons_append, skipWs_cons_not c _ hws]
        have helems : parseElems f
            (c :: (t ++ (Z ++ (nlIndent d ++ ']' :: rest)))) = some (x :: xs, rest) := by
          apply parseElems_ser (x :: xs) (by simp) d f rest
          · have hsz := sizeV_list_eq (x :: xs)
            omega
          · rw [skipWs_cons_not c _ hws, htail]
        exact pv_list_step f input _ c _ (x :: xs) rest h1 htail hcr helems
    | obj kvs =>
      cases kvs with
      | nil =>
        have h1 : skipWs input = '\x7b' :: ('\x7d' :: rest) := by
          rw [hinput]; simp [serValue]
        exact pv_obj_empty f input _ rest h1
          (skipWs_cons_not '\x7d' rest (by decide))
      | cons kv kvs =>
        obtain ⟨Z, hZ⟩ := serMembers_cons_eq2 kv kvs d
        have h1 : skipWs input =
            '\x7b' :: (serMembers (kv :: kvs) d ++
              (nlIndent d ++ '\x7d' :: rest)) := by
          rw [hinput]; simp [serValue]
        have htail : skipWs (serMembers (kv :: kvs) d ++
              (nlIndent d ++ '\x7d' :: rest)) =
            '"' :: ((kv.1.data.flatMap escChar ++
              ('"' :: ':' :: ' ' :: (serValue kv.2 (d + 1) ++ Z))) ++
                (nlIndent d ++ '\x7d' :: rest)) := by
          rw [hZ, List.append_assoc, skipWs_nlIndent, List.cons_append,
            skipWs_cons_not '"' _ (by decide)]
        have hmem : parseMembers f
            ('"' :: ((kv.1.data.flatMap escChar ++
              ('"' :: ':' :: ' ' :: (serValue kv.2 (d + 1) ++ Z))) ++
                (nlIndent d ++ '\x7d' :: rest))) = some (kv :: kvs, rest) := by
          apply parseMembers_ser (kv :: kvs) (by simp) d f rest
          · have hsz := sizeV_obj_eq (kv :: kvs)
            have hsm := sizeM_cons_eq2 kv kvs
            omega
          · rw [skipWs_cons_not '"' _ (by decide), htail]
        exact pv_obj_step f input _ '"' _ (kv :: kvs) rest h1 htail
          (by decide) hmem
termination_by sizeV v
decreasing_by all_goals (subst_vars; simp only [sizeV_list_eq, sizeV_obj_eq,
  sizeM_cons_eq2, sizeE_cons_eq, sizeM_nil_eq]; omega)

/-- Reading back serialized object members (closing brace included). -/
theorem parseMembers_ser (kvs : List (String × JValue)) (hne : kvs ≠ [])
    (d fuel : Nat) (rest input : List Char) (hfuel : sizeM kvs ≤ fuel)
    (hinput : skipWs input =
      skipWs (serMembers kvs d ++ (nlIndent d ++ '\x7d' :: rest))) :
    parseMembers fuel input = some (kvs, rest) := by
  cases kvs with
  | nil => exact absurd rfl hne
  | cons kv kvs =>
    cases fuel with
    | zero =>
      exact absurd hfuel (by
        have hsz := sizeM_cons_eq2 kv kvs
        omega)
    | succ f =>
      cases kvs with
      | nil =>
        have hser : serMembers [kv] d ++ (nlIndent d ++ '\x7d' :: rest) =
            nlIndent (d + 1) ++ ('"' :: (kv.1.data.flatMap escChar ++
              ('"' :: (':' :: (' ' :: (serValue kv.2 (d + 1) ++
                (nlIndent d ++ '\x7d' :: rest))))))) := by
          obtain ⟨k, v⟩ := kv
          simp [serMembers, serString]
        have h1 : skipWs input = '"' :: (kv.1.data.flatMap escChar ++
            ('"' :: (':' :: (' ' :: (serValue kv.2 (d + 1) ++
              (nlIndent d ++ '\x7d' :: rest)))))) := by
          rw [hinput, hser, skipWs_nlIndent, skipWs_cons_not '"' _ (by decide)]
        have h2 : parseStringBody (kv.1.data.flatMap escChar ++
            ('"' :: (':' :: (' ' :: (serValue kv.2 (d + 1) ++
              (nlIndent d ++ '\x7d' :: rest)))))) =
            some (kv.1.data, ':' :: (' ' :: (serValue kv.2 (d + 1) ++
              (nlIndent d ++ '\x7d' :: rest)))) :=
          parseStringBody_escape kv.1.data _
        have h3 : skipWs (':' :: (' ' :: (serValue kv.2 (d + 1) ++
            (nlIndent d ++ '\x7d' :: rest)))) =
            ':' :: (' ' :: (serValue kv.2 (d + 1) ++ (nlIndent d ++ '\x7d' :: rest))) :=
          skipWs_cons_not ':' _ (by decide)
        have h4 : parseValue f (' ' :: (serValue kv.2 (d + 1) ++
            (nlIndent d ++ '\x7d' :: rest))) =
            some (kv.2, nlIndent d ++ '\x7d' :: rest) := by
          apply parseValue_ser kv.2 (d + 1) f
          · have hsz := sizeM_cons_eq2 kv []
            have hnil := sizeM_nil_eq
            omega
          · simp only [nlIndent, List.cons_append, headNotDigit]
            decide
          · rw [skipWs_cons_ws ' ' _ (by decide), skipWs_serValue]
        have h5 : skipWs (nlIndent d ++ '\x7d' :: rest) = '\x7d' :: rest := by
          rw [skipWs_nlIndent]
          exact skipWs_cons_not '\x7d' rest (by decide)
        rw [pm_last f input _ kv.1.data _ _ kv.2 _ rest h1 h2 h3 h4 h5,
          stringMk_data, Prod.mk.eta]
      | cons kv2 kvs2 =>
        have hser : serMembers (kv :: kv2 :: kvs2) d ++
              (nlIndent d ++ '\x7d' :: rest) =
            nlIndent (d + 1) ++ ('"' :: (kv.1.data.flatMap escChar ++
              ('"' :: (':' :: (' ' :: (serValue kv.2 (d + 1) ++
                (',' :: (serMembers (kv2 :: kvs2) d ++
                  (nlIndent d ++ '\x7d' :: rest))))))))) := by
          obtain ⟨k, v⟩ := kv
          simp [serMembers, serString]
        have h1 : skipWs input = '"' :: (kv.1.data.flatMap escChar ++
            ('"' :: (':' :: (' ' :: (serValue kv.2 (d + 1) ++
              (',' :: (serMembers (kv2 :: kvs2) d ++
                (nlIndent d ++ '\x7d' :: rest)))))))) := by
          rw [hinput, hser, skipWs_nlIndent, skipWs_cons_not '"' _ (by decide)]
        have h2 : parseStringBody (kv.1.data.flatMap escChar ++
            ('"' :: (':' :: (' ' :: (serValue kv.2 (d + 1) ++
              (',' :: (serMembers (kv2 :: kvs2) d ++
                (nlIndent d ++ '\x7d' :: rest)))))))) =
            some (kv.1.data, ':' :: (' ' :: (serValue kv.2 (d + 1) ++
              (',' :: (serMembers (kv2 :: kvs2) d ++
                (nlIndent d ++ '\x7d' :: rest)))))) :=
          parseStringBody_escape kv.1.data _
        have h3 : skipWs (':' :: (' ' :: (serValue kv.2 (d + 1) ++
            (',' :: (serMembers (kv2 :: kvs2) d ++
              (nlIndent d ++ '\x7d' :: rest)))))) =
            ':' :: (' ' :: (serValue kv.2 (d + 1) ++
              (',' :: (serMembers (kv2 :: kvs2) d ++
                (nlIndent d ++ '\x7d' :: rest))))) :=
          skipWs_cons_not ':' _ (by decide)
        have h4 : parseValue f (' ' :: (serValue kv.2 (d + 1) ++
            (',' :: (serMembers (kv2 :: kvs2) d ++
              (nlIndent d ++ '\x7d' :: rest))))) =
            some (kv.2, ',' :: (serMembers (kv2 :: kvs2) d ++
              (nlIndent d ++ '\x7d' :: rest))) := by
          apply parseValue_ser kv.2 (d + 1) f
          · have hsz := sizeM_cons_eq2 kv (kv2 :: kvs2)
            omega
          · simp only [headNotDigit]
            decide
          · rw [skipWs_cons_ws ' ' _ (by decide), skipWs_serValue]
        have h5 : skipWs (',' :: (serMembers (kv2 :: kvs2) d ++
            (nlIndent d ++ '\x7d' :: rest))) =
            ',' :: (serMembers (kv2 :: kvs2) d ++ (nlIndent d ++ '\x7d' :: rest)) :=
          skipWs_cons_not ',' _ (by decide)
        have h6 : parseMembers f (serMembers (kv2 :: kvs2) d ++
            (nlIndent d ++ '\x7d' :: rest)) = some (kv2 :: kvs2, rest) := by
          apply parseMembers_ser (kv2 :: kvs2) (by simp) d f rest
          · have hsz := sizeM_cons_eq2 kv (kv2 :: kvs2)
            have hpos := sizeV_pos kv.2
            omega
          · rfl
        rw [pm_cons f input _ kv.1.data _ _ kv.2 _ _ (kv2 :: kvs2) rest h1 h2 h3 h4 h5 h6,
          stringMk_data, Prod.mk.eta]
termination_by sizeM kvs
decreasing_by all_goals (subst_vars; simp only [sizeV_list_eq, sizeV_obj_eq,
  sizeM_cons_eq2, sizeE_cons_eq, sizeM_nil_eq]; omega)

/-- Reading back serialized array elements (closing bracket included). -/
theorem parseElems_ser (xs : List JValue) (hne : xs ≠ [])
    (d fuel : Nat) (rest input : List Char) (hfuel : sizeE xs ≤ fuel)
    (hinput : skipWs input =
      skipWs (serElems xs d ++ (nlIndent d ++ ']' :: rest))) :
    parseElems fuel input = some (xs, rest) := by
  cases xs with
  | nil => exact absurd rfl hne
  | cons x xs =>
    cases fuel with
    | zero =>
      exact absurd hfuel (by
        have hsz := sizeE_cons_eq x xs
        have hpos := sizeV_pos x
        omega)
    | succ f =>
      cases xs with
      | nil =>
        have h1 : parseValue f input = some (x, nlIndent d ++ ']' :: rest) := by
          apply parseValue_ser x (d + 1) f
          · have hsz := sizeE_cons_eq x []
            have hnil : sizeE [] = 0 := by simp [sizeE]
            omega
          · simp only [nlIndent, List.cons_append, headNotDigit]
            decide
          · rw [hinput, show serElems [x] d ++ (nlIndent d ++ ']' :: rest) =
                nlIndent (d + 1) ++ (serValue x (d + 1) ++
                  (nlIndent d ++ ']' :: rest)) by simp [serElems],
              skipWs_nlIndent, skipWs_serValue]
        have h2 : skipWs (nlIndent d ++ ']' :: rest) = ']' :: rest := by
          rw [skipWs_nlIndent]
          exact skipWs_cons_not ']' rest (by decide)
        exact pe_last f input x _ rest h1 h2
      | cons y ys =>
        have h1 : parseValue f input =
            some (x, ',' :: (serElems (y :: ys) d ++ (nlIndent d ++ ']' :: rest))) := by
          apply parseValue_ser x (d + 1) f
          · have hsz := sizeE_cons_eq x (y :: ys)
            omega
          · simp only [headNotDigit]
            decide
          · rw [hinput, show serElems (x :: y :: ys) d ++ (nlIndent d ++ ']' :: rest) =
                nlIndent (d + 1) ++ (serValue x (d + 1) ++
                  (',' :: (serElems (y :: ys) d ++ (nlIndent d ++ ']' :: rest)))) by
                simp [serElems],
              skipWs_nlIndent, skipWs_serValue]
        have h2 : skipWs (',' :: (serElems (y :: ys) d ++
            (nlIndent d ++ ']' :: rest))) =
            ',' :: (serElems (y :: ys) d ++ (nlIndent d ++ ']' :: rest)) :=
          skipWs_cons_not ',' _ (by decide)
        have h3 : parseElems f (serElems (y :: ys) d ++
            (nlIndent d ++ ']' :: rest)) = some (y :: ys, rest) := by
          apply parseElems_ser (y :: ys) (by simp) d f rest
          · have hsz := sizeE_cons_eq x (y :: ys)
            have hpos := sizeV_pos x
            omega
          · rfl
        exact pe_cons f input x _ _ (y :: ys) rest h1 h2 h3
termination_by sizeE xs
decreasing_by all_goals (subst_vars; simp only [sizeV_list_eq, sizeV_obj_eq,
  sizeM_cons_eq2, sizeE_cons_eq, sizeM_nil_eq]; omega)

end

mutual

/-- The serialized text is at least as long as the value's size, so
length-based fuel suffices. -/
theorem sizeV_le_len (v : JValue) (d : Nat) : sizeV v ≤ (serValue v d).length := by
  cases v with
  | str s =>
    simp [sizeV, serValue, serString]
  | int n =>
    have hne : serInt n ≠ [] := by
      cases n with
      | ofNat m => simp [serInt]; exact natDigits_ne_nil m
      | negSucc m => simp [serInt]
    have hpos : 0 < (serInt n).length := List.length_pos.mpr hne
    have hs : sizeV (.int n) = 1 := by simp [sizeV]
    have hlen : (serValue (.int n) d).length = (serInt n).length := by
      simp [serValue]
    omega
  | bool b => cases b <;> simp [sizeV, serValue]
  | null => simp [sizeV, serValue]
  | list xs =>
    cases xs with
    | nil => simp [sizeV, sizeE, serValue]
    | cons x xs =>
      have hE := sizeE_le_len (x :: xs) d
      have hs := sizeV_list_eq (x :: xs)
      have hv : (serValue (.list (x :: xs)) d).length =
          1 + ((serElems (x :: xs) d).length + ((nlIndent d).length + 1)) := by
        simp [serValue]
        omega
      omega
  | obj kvs =>
    cases kvs with
    | nil => simp [sizeV, sizeM, serValue]
    | cons kv kvs =>
      have hM := sizeM_le_len (kv :: kvs) d
      have hs := sizeV_obj_eq (kv :: kvs)
      have hv : (serValue (.obj (kv :: kvs)) d).length =
          1 + ((serMembers (kv :: kvs) d).length + ((nlIndent d).length + 1)) := by
        simp [serValue]
        omega
      omega
termination_by sizeV v
decreasing_by all_goals (subst_vars; simp only [sizeV_list_eq, sizeV_obj_eq,
  sizeM_cons_eq2, sizeE_cons_eq, sizeM_nil_eq]; omega)

/-- Member lists: size is bounded by serialized length. -/
theorem sizeM_le_len (kvs : List (String × JValue)) (d : Nat) :
    sizeM kvs ≤ (serMembers kvs d).length := by
  cases kvs with
  | nil => simp [sizeM]
  | cons kv kvs =>
    have hv := sizeV_le_len kv.2 (d + 1)
    have hs := sizeM_cons_eq2 kv kvs
    cases kvs with
    | nil =>
      have hnil := sizeM_nil_eq
      have hlen : (serMembers [kv] d).length =
          (nlIndent (d + 1)).length + ((serString kv.1).length +
            (2 + (serValue kv.2 (d + 1)).length)) := by
        obtain ⟨k, v⟩ := kv
        simp [serMembers]
        omega
      have hn : 1 ≤ (nlIndent (d + 1)).length := by simp [nlIndent]
      omega
    | cons kv2 kvs2 =>
      have hM := sizeM_le_len (kv2 :: kvs2) d
      have hlen : (serMembers (kv :: kv2 :: kvs2) d).length =
          (nlIndent (d + 1)).length + ((serString kv.1).length +
            (2 + ((serValue kv.2 (d + 1)).length +
              (1 + (serMembers (kv2 :: kvs2) d).length)))) := by
        obtain ⟨k, v⟩ := kv
        simp [serMembers]
        omega
      have hn : 1 ≤ (nlIndent (d + 1)).length := by simp [nlIndent]
      omega
termination_by sizeM kvs
decreasing_by all_goals (subst_vars; simp only [sizeV_list_eq, sizeV_obj_eq,
  sizeM_cons_eq2, sizeE_cons_eq, sizeM_nil_eq]; omega)

/-- Element lists: size is bounded by serialized length. -/
theorem sizeE_le_len (xs : List JValue) (d : Nat) :
    sizeE xs ≤ (serElems xs d).length := by
  cases xs with
  | nil => simp [sizeE]
  | cons x xs =>
    have hv := sizeV_le_len x (d + 1)
    have hs := sizeE_cons_eq x xs
    cases xs with
    | nil =>
      have hnil : sizeE [] = 0 := by simp [sizeE]
      have hlen : (serElems [x] d).length =
          (nlIndent (d + 1)).length + (serValue x (d + 1)).length := by
        simp [serElems]
      have hn : 1 ≤ (nlIndent (d + 1)).length := by simp [nlIndent]
      omega
    | cons y ys =>
      have hE := sizeE_le_len (y :: ys) d
      have hlen : (serElems (x :: y :: ys) d).length =
          (nlIndent (d + 1)).length + ((serValue x (d + 1)).length +
            (1 + (serElems (y :: ys) d).length)) := by
        simp [serElems]
        omega
      have hn : 1 ≤ (nlIndent (d + 1)).length := by simp [nlIndent]
      omega
termination_by sizeE xs
decreasing_by all_goals (subst_vars; simp only [sizeV_list_eq, sizeV_obj_eq,
  sizeM_cons_eq2, sizeE_cons_eq, sizeM_nil_eq]; omega)

end

/-- Writing a value with the embedded `json.dump` and reading the file back
with the embedded `json.load` returns the value unchanged. -/
theorem json_loads_serValue (v : JValue) : json_loads (serValue v 0) = some v := by
  have hfuel : sizeV v ≤ (serValue v 0).length + 1 := by
    have := sizeV_le_len v 0
    omega
  have hinput : skipWs (serValue v 0) = serValue v 0 ++ ([] : List Char) := by
    have := skipWs_serValue v 0 []
    simpa using this
  have h := parseValue_ser v 0 ((serValue v 0).length + 1) [] (serValue v 0)
    hfuel rfl hinput
  rw [json_loads, h]
  simp [skipWs]

theorem paste_width (img sub : PILImage) (pos : Nat × Nat) :
    (img.paste sub pos).width = img.width := by
  cases img <;> rfl

theorem paste_height (img sub : PILImage) (pos : Nat × Nat) :
    (img.paste sub pos).height = img.height := by
  cases img <;> rfl

theorem drawText_width (img : PILImage) (m f : String) :
    (img.drawText m f).width = img.width := by
  cases img <;> rfl

theorem drawText_height (img : PILImage) (m f : String) :
    (img.drawText m f).height = img.height := by
  cases img <;> rfl

theorem getKey_hasKey (key : String) (kvs : List (String × JValue)) (v : JValue)
    (h : getKey key kvs = some v) : hasKey key kvs = true := by
  induction kvs with
  | nil => simp [getKey, List.lookup] at h
  | cons kv rest ih =>
    by_cases hk : key = kv.1
    · simp [hasKey, hk]
    · have hb : (key == kv.1) = false := by simpa using hk
      simp only [getKey, List.lookup, hb] at h
      simp only [hasKey, List.any_cons, Bool.or_eq_true]
      exact Or.inr (by simpa [hasKey] using ih h)

theorem hasKey_ne_nil (key : String) (kvs : List (String × JValue))
    (h : hasKey key kvs = true) : kvs ≠ [] := by
  intro hnil
  subst hnil
  simp [hasKey] at h

namespace EnhancedWebtoonGenerator
theorem pasteScenes_width (pairs : List (JValue × Option PILImage)) :
    ∀ (c : PILImage) (y i : Nat), (pasteScenes c y i pairs).width = c.width := by
  induction pairs with
  | nil => intro c y i; rfl
  | cons p rest ih =>
    intro c y i
    obtain ⟨sc, img⟩ := p
    rw [pasteScenes, ih, paste_width]

theorem pasteScenes_height (pairs : List (JValue × Option PILImage)) :
    ∀ (c : PILImage) (y i : Nat), (pasteScenes c y i pairs).height = c.height := by
  induction pairs with
  | nil => intro c y i; rfl
  | cons p rest ih =>
    intro c y i
    obtain ⟨sc, img⟩ := p
    rw [pasteScenes, ih, paste_height]

theorem pasteScenes_pasteLog (pairs : List (JValue × Option PILImage)) :
    ∀ (w h : Nat) (bg : String) (ts : List (String × String))
      (ps : List (PILImage × Nat × Nat)) (y i : Nat),
      (pasteScenes (.canvas w h bg ts ps) y i pairs).pasteLog =
        ps ++ slotPastes y i pairs := by
  induction pairs with
  | nil => intro w h bg ts ps y i; simp [pasteScenes, slotPastes, PILImage.pasteLog]
  | cons p rest ih =>
    intro w h bg ts ps y i
    obtain ⟨sc, img⟩ := p
    rw [pasteScenes, slotPastes]
    rw [show (PILImage.canvas w h bg ts ps).paste (slotImage i img)
        (WEBTOON_CONFIG.padding, y) =
      PILImage.canvas w h bg ts (ps ++ [(slotImage i img,
        (WEBTOON_CONFIG.padding, y))]) from rfl, ih]
    simp

theorem slotPastes_length (pairs : List (JValue × Option PILImage)) :
    ∀ y i : Nat, (slotPastes y i pairs).length = pairs.length := by
  induction pairs with
  | nil => intro y i; rfl
  | cons p rest ih =>
    intro y i
    obtain ⟨sc, img⟩ := p
    rw [slotPastes]
    simp [ih]

theorem slotPastes_getElem (pairs : List (JValue × Option PILImage)) :
    ∀ y i j : Nat, (slotPastes y i pairs)[j]? =
      (pairs[j]?).map (fun p => (slotImage (i + j) p.2,
        (WEBTOON_CONFIG.padding,
          y + j * (WEBTOON_CONFIG.panel_height + WEBTOON_CONFIG.padding)))) := by
  induction pairs with
  | nil => intro y i j; simp [slotPastes]
  | cons p rest ih =>
    intro y i j
    obtain ⟨sc, img⟩ := p
    rw [slotPastes]
    cases j with
    | zero => simp
    | succ j =>
      simp only [List.getElem?_cons_succ]
      rw [ih]
      cases hrest : rest[j]? with
      | none => simp
      | some q =>
        simp only [Option.map_some', Option.some.injEq, Prod.mk.injEq]
        refine ⟨by rw [show i + 1 + j = i + (j + 1) by omega], trivial, by ring⟩

/-- The shape of a successful enhanced layout: the guard passes, the canvas is
`panel_width + 2*padding` by
`title_height + (panel_height+padding)*len(scenes) + padding*2`, the title is
drawn, and the scene loop runs from `title_height + padding`. -/
theorem create_enhanced_webtoon_layout_eq (kvs : List (String × JValue))
    (scenes : List JValue) (images : List (Option PILImage)) (t : String)
    (hs : getKey "scenes" kvs = some (.list scenes))
    (ht : titleOf kvs = .ok t) (himg : images ≠ []) :
    create_enhanced_webtoon_layout kvs images =
      .ok (some (pasteScenes
        ((PILImage.canvas (WEBTOON_CONFIG.panel_width + 2 * WEBTOON_CONFIG.padding)
          (WEBTOON_CONFIG.title_height +
            (WEBTOON_CONFIG.panel_height + WEBTOON_CONFIG.padding) * scenes.length +
            WEBTOON_CONFIG.padding * 2) "white" [] []).drawText t "black")
        (WEBTOON_CONFIG.title_height + WEBTOON_CONFIG.padding) 0
        (scenes.zip images))) := by
  have hk := getKey_hasKey "scenes" kvs _ hs
  have hne := hasKey_ne_nil "scenes" kvs hk
  rw [create_enhanced_webtoon_layout]
  rw [if_neg (by simp [hk, hne, himg])]
  rw [hs, ht]

end EnhancedWebtoonGenerator
namespace WebtoonGenerator
theorem pasteOptScenes_width (pairs : List (JValue × Option PILImage)) :
    ∀ (c : PILImage) (y : Nat), (pasteOptScenes c y pairs).width = c.width := by
  induction pairs with
  | nil => intro c y; rfl
  | cons p rest ih =>
    intro c y
    obtain ⟨sc, img⟩ := p
    cases img with
    | none => rw [pasteOptScenes]; exact ih c _
    | some im => rw [pasteOptScenes]; rw [ih, paste_width]

theorem pasteOptScenes_height (pairs : List (JValue × Option PILImage)) :
    ∀ (c : PILImage) (y : Nat), (pasteOptScenes c y pairs).height = c.height := by
  induction pairs with
  | nil => intro c y; rfl
  | cons p rest ih =>
    intro c y
    obtain ⟨sc, img⟩ := p
    cases img with
    | none => rw [pasteOptScenes]; exact ih c _
    | some im => rw [pasteOptScenes]; rw [ih, paste_height]

theorem pasteOptScenes_pasteLog (pairs : List (JValue × Option PILImage)) :
    ∀ (w h : Nat) (bg : String) (ts : List (String × String))
      (ps : List (PILImage × Nat × Nat)) (y : Nat),
      (pasteOptScenes (.canvas w h bg ts ps) y pairs).pasteLog =
        ps ++ appSlotPastes y pairs := by
  induction pairs with
  | nil => intro w h bg ts ps y; simp [pasteOptScenes, appSlotPastes, PILImage.pasteLog]
  | cons p rest ih =>
    intro w h bg ts ps y
    obtain ⟨sc, img⟩ := p
    cases img with
    | none =>
      rw [pasteOptScenes, appSlotPastes]
      exact ih w h bg ts ps _
    | some im =>
      rw [pasteOptScenes, appSlotPastes]
      rw [show (PILImage.canvas w h bg ts ps).paste (PILImage.resized im 800 600)
          (20, y) = PILImage.canvas w h bg ts
            (ps ++ [(PILImage.resized im 800 600, (20, y))]) from rfl, ih]
      simp

theorem appSlotPastes_length (pairs : List (JValue × Option PILImage))
    (hall : ∀ p ∈ pairs, p.2.isSome = true) :
    ∀ y : Nat, (appSlotPastes y pairs).length = pairs.length := by
  induction pairs with
  | nil => intro y; rfl
  | cons p rest ih =>
    intro y
    obtain ⟨sc, img⟩ := p
    cases img with
    | none => exact absurd (hall (sc, none) (by simp)) (by simp)
    | some im =>
      rw [appSlotPastes]
      simp only [List.length_cons]
      rw [ih (fun q hq => hall q (by simp [hq]))]

theorem appSlotPastes_pos (pairs : List (JValue × Option PILImage))
    (hall : ∀ p ∈ pairs, p.2.isSome = true) :
    ∀ (y j : Nat), j < pairs.length →
      ∃ im, (appSlotPastes y pairs)[j]? = some (im, (20, y + j * (600 + 20))) := by
  induction pairs with
  | nil => intro y j hj; simp at hj
  | cons p rest ih =>
    intro y j hj
    obtain ⟨sc, img⟩ := p
    cases img with
    | none => exact absurd (hall (sc, none) (by simp)) (by simp)
    | some im =>
      rw [appSlotPastes]
      cases j with
      | zero => exact ⟨.resized im 800 600, by simp⟩
      | succ j =>
        obtain ⟨im2, him2⟩ := ih (fun q hq => hall q (by simp [hq])) (y + 600 + 20) j
          (by simpa using hj)
        refine ⟨im2, ?_⟩
        simp only [List.getElem?_cons_succ]
        rw [him2]
        congr 2
        ring_nf

/-- The shape of a successful app.py layout: 800/600/20/100 literals, height
`100 + (600+20)*len(scenes) + 20`, no title text, loop from `y = 20`. -/
theorem create_webtoon_layout_eq (kvs : List (String × JValue))
    (scenes : List JValue) (images : List (Option PILImage))
    (hs : getKey "scenes" kvs = some (.list scenes)) (hne : scenes ≠ [])
    (himg : images ≠ []) :
    create_webtoon_layout (some kvs) images =
      .ok (some (pasteOptScenes
        (PILImage.canvas (800 + 2 * 20) (100 + (600 + 20) * scenes.length + 20)
          "white" [] []) 20 (scenes.zip images))) := by
  have hk := getKey_hasKey "scenes" kvs _ hs
  have hkne := hasKey_ne_nil "scenes" kvs hk
  rw [create_webtoon_layout]
  rw [if_neg (by
    simp only [getKeyD, hs, Option.getD_some, Bool.or_eq_true, Bool.not_eq_true]
    simp [hkne, himg, JValue.isTruthy, hne])]
  rw [hs]

end WebtoonGenerator
theorem retryGo_step_fail (step : Nat → AttemptResult) (maxR attempt r : Nat)
    (h : ∀ img, step attempt ≠ .success img) :
    retryGo step maxR attempt (r + 1) =
      ⟨(retryGo step maxR (attempt + 1) r).image,
       (retryGo step maxR (attempt + 1) r).attempts + 1,
       (if attempt < maxR - 1 then [IMAGE_CONFIG.retry_delay] else []) ++
         (retryGo step maxR (attempt + 1) r).sleeps,
       (retryGo step maxR (attempt + 1) r).usedPlaceholder⟩ := by
  rw [retryGo]
  cases e : step attempt with
  | success img => exact absurd e (h img)
  | noImage => rfl
  | raised => rfl

theorem retryGo_step_success (step : Nat → AttemptResult) (maxR attempt r : Nat)
    (img : PILImage) (h : step attempt = .success img) :
    retryGo step maxR attempt (r + 1) = ⟨img, 1, [], false⟩ := by
  rw [retryGo, h]

theorem retryGo_base (step : Nat → AttemptResult) (maxR attempt : Nat) :
    retryGo step maxR attempt 0 =
      ⟨create_error_image WEBTOON_CONFIG.panel_width WEBTOON_CONFIG.panel_height
        "Image generation failed", 0, [], true⟩ := by
  rw [retryGo]

/-- The part loop is decided entirely by the first image-bearing part: parts
before it are skipped, parts after it are never examined, and the outcome is
the decode of its payload — the image on success, a raised exception (which
aborts the attempt) when both decode paths fail. -/
theorem extractImage_first_inline (b64 : List Nat → Option (List Nat))
    (imgOpen : List Nat → Option PILImage) (pre : List RespPart)
    (data : List Nat) (rest : List RespPart)
    (hpre : ∀ p ∈ pre, isImageBearing p = false) (hdata : data ≠ []) :
    extractImage b64 imgOpen (pre ++ .inline data :: rest) =
      (match decodeInline b64 imgOpen data with
       | some img => Except.ok (some img)
       | none => Except.error ()) := by
  induction pre with
  | nil =>
    cases data with
    | nil => exact absurd rfl hdata
    | cons b bs =>
      rw [List.nil_append, extractImage]
  | cons p ps ih =>
    cases p with
    | text s =>
      rw [List.cons_append, extractImage]
      exact ih (fun q hq => hpre q (by simp [hq]))
    | inline d =>
      cases d with
      | nil =>
        rw [List.cons_append, extractImage]
        exact ih (fun q hq => hpre q (by simp [hq]))
      | cons x xs =>
        exact absurd (hpre (.inline (x :: xs)) (by simp)) (by simp [isImageBearing])

/-- C1: with the client initialized and a generator whose calls never yield a
decodable image-bearing part (every attempt raises or finds no inline image),
`generate_scene_image_with_retry` performs exactly `max_retries` (3) attempts
with exactly `max_retries - 1` (2) inter-attempt delays of `retry_delay` (1)
time unit each, never raises, never returns an absent value, and returns the
error placeholder of exactly the configured panel dimensions
(`panel_width` 800 × `panel_height` 600). -/
theorem C1_retry_exhausted_placeholder (call : Nat → CallResult)
    (b64 : List Nat → Option (List Nat)) (imgOpen : List Nat → Option PILImage)
    (hfail : ∀ n img, runAttempt call b64 imgOpen n ≠ .success img) :
    EnhancedWebtoonGenerator.generate_scene_image_with_retry true call b64 imgOpen =
      some ⟨create_error_image WEBTOON_CONFIG.panel_width WEBTOON_CONFIG.panel_height
          "Image generation failed",
        IMAGE_CONFIG.max_retries,
        List.replicate (IMAGE_CONFIG.max_retries - 1) IMAGE_CONFIG.retry_delay,
        true⟩ := by
  rw [EnhancedWebtoonGenerator.generate_scene_image_with_retry, if_pos rfl]
  have hm : IMAGE_CONFIG.max_retries = 3 := rfl
  rw [hm]
  have f0 := retryGo_step_fail (runAttempt call b64 imgOpen) 3 0 2
    (fun img => hfail 0 img)
  have f1 := retryGo_step_fail (runAttempt call b64 imgOpen) 3 1 1
    (fun img => hfail 1 img)
  have f2 := retryGo_step_fail (runAttempt call b64 imgOpen) 3 2 0
    (fun img => hfail 2 img)
  have fb := retryGo_base (runAttempt call b64 imgOpen) 3 3
  simp only [Nat.reduceAdd] at f0 f1 f2
  rw [f0, f1, f2, fb]
  simp [IMAGE_CONFIG]

/-- C1 witness: a generator that always raises, concretely. -/
theorem C1_retry_exhausted_placeholder_witness :
    EnhancedWebtoonGenerator.generate_scene_image_with_retry true
      (fun _ => CallResult.raises) (fun _ => none) (fun _ => none) =
      some ⟨create_error_image WEBTOON_CONFIG.panel_width WEBTOON_CONFIG.panel_height
          "Image generation failed",
        IMAGE_CONFIG.max_retries,
        List.replicate (IMAGE_CONFIG.max_retries - 1) IMAGE_CONFIG.retry_delay,
        true⟩ :=
  C1_retry_exhausted_placeholder _ _ _
    (by intro n img h; simp [runAttempt] at h)

/-- C7: when the first attempt fails (raises or returns no image) and the
second attempt yields a decodable image, the requester returns that image
after exactly 2 attempts with exactly one inter-attempt delay, without
the placeholder and without a third call (the result does not depend on any
later attempt). -/
theorem C7_success_on_second_attempt (call : Nat → CallResult)
    (b64 : List Nat → Option (List Nat)) (imgOpen : List Nat → Option PILImage)
    (img : PILImage)
    (h0 : runAttempt call b64 imgOpen 0 = .noImage ∨
      runAttempt call b64 imgOpen 0 = .raised)
    (h1 : runAttempt call b64 imgOpen 1 = .success img) :
    EnhancedWebtoonGenerator.generate_scene_image_with_retry true call b64 imgOpen =
      some ⟨img, 2, [IMAGE_CONFIG.retry_delay], false⟩ := by
  rw [EnhancedWebtoonGenerator.generate_scene_image_with_retry, if_pos rfl]
  have hm : IMAGE_CONFIG.max_retries = 3 := rfl
  rw [hm]
  have hf0 : ∀ im, runAttempt call b64 imgOpen 0 ≠ .success im := by
    intro im h
    rcases h0 with h0 | h0 <;> rw [h0] at h <;> exact AttemptResult.noConfusion h
  have f0 := retryGo_step_fail (runAttempt call b64 imgOpen) 3 0 2 hf0
  have f1 := retryGo_step_success (runAttempt call b64 imgOpen) 3 1 1 img h1
  simp only [Nat.reduceAdd] at f0 f1
  rw [f0, f1]
  simp [IMAGE_CONFIG]

/-- C7 witness: raises on the first call, returns a decodable inline image on
the second. -/
theorem C7_success_on_second_attempt_witness :
    EnhancedWebtoonGenerator.generate_scene_image_with_retry true
      (fun n => if n = 0 then CallResult.raises
        else CallResult.response [⟨some [RespPart.inline [5]]⟩])
      (fun d => some d) (fun _ => some (PILImage.external 7 4 4)) =
      some ⟨PILImage.external 7 4 4, 2, [IMAGE_CONFIG.retry_delay], false⟩ :=
  C7_success_on_second_attempt _ _ _ _ (Or.inr rfl) rfl

/-- C6 counterexample: the claim says that when the first inline-data part is
undecodable and the second is decodable, the second part's image is used
within the same attempt.  On the code, the raw-open fallback for the first
truthy inline payload is not inside a `try`, so the attempt raises instead
and never reaches the second part: here the second part ([2]) is decodable,
yet extraction returns an error, not that image. -/
theorem C6_counterexample :
    decodeInline (fun _ => none)
        (fun d => if d = [2] then some (PILImage.external 2 1 1) else none) [2] =
      some (PILImage.external 2 1 1) ∧
    extractImage (fun _ => none)
        (fun d => if d = [2] then some (PILImage.external 2 1 1) else none)
        [RespPart.inline [1], RespPart.inline [2]] = .error () := by
  constructor
  · rfl
  · rw [extractImage]
    rfl

/-- C6 amended: the extraction is decided entirely by the first part carrying
a truthy inline payload — earlier parts are skipped, later parts never
examined; if its payload decodes (base64-decode-and-open first, then raw
open), that image is returned, and if both paths fail the attempt raises. -/
theorem C6_first_image_bearing_part_decides (b64 : List Nat → Option (List Nat))
    (imgOpen : List Nat → Option PILImage) (pre : List RespPart)
    (data : List Nat) (rest : List RespPart)
    (hpre : ∀ p ∈ pre, isImageBearing p = false) (hdata : data ≠ []) :
    extractImage b64 imgOpen (pre ++ .inline data :: rest) =
      (match decodeInline b64 imgOpen data with
       | some img => Except.ok (some img)
       | none => Except.error ()) :=
  extractImage_first_inline b64 imgOpen pre data rest hpre hdata

/-- C6 amended witness: a text part is skipped, the first inline payload
decodes, the trailing part is ignored. -/
theorem C6_first_image_bearing_part_decides_witness :
    (∀ p ∈ ([RespPart.text "x"] : List RespPart), isImageBearing p = false) ∧
    extractImage (fun d => some d)
      (fun d => if d = [3] then some (PILImage.external 3 2 2) else none)
      ([RespPart.text "x"] ++ RespPart.inline [3] :: [RespPart.inline [9]]) =
      (match decodeInline (fun d => some d)
          (fun d => if d = [3] then some (PILImage.external 3 2 2) else none) [3] with
       | some img => Except.ok (some img)
       | none => Except.error ()) :=
  ⟨by intro p hp; simp at hp; subst hp; rfl,
   C6_first_image_bearing_part_decides _ _ _ _ _
     (by intro p hp; simp at hp; subst hp; rfl) (by simp)⟩

/-- C4: `validate_story_data` rejects any payload without a `scenes` field,
rejects any payload whose scene list contains a scene dict lacking
`educational_point`, rejects any payload with a scene whose `characters`
value is not a list, and accepts the minimal well-formed payload with title,
concept, and one scene carrying all seven required scene fields with a list
`characters`. -/
theorem C4_validate_story_data_spec :
    (∀ kvs : List (String × JValue), hasKey "scenes" kvs = false →
      validate_story_data (.obj kvs) = false) ∧
    (∀ (kvs : List (String × JValue)) (scenes : List JValue)
        (skvs : List (String × JValue)),
      getKey "scenes" kvs = some (.list scenes) → JValue.obj skvs ∈ scenes →
      hasKey "educational_point" skvs = false →
      validate_story_data (.obj kvs) = false) ∧
    (∀ (kvs : List (String × JValue)) (scenes : List JValue)
        (skvs : List (String × JValue)) (v : JValue),
      getKey "scenes" kvs = some (.list scenes) → JValue.obj skvs ∈ scenes →
      getKey "characters" skvs = some v → (∀ xs, v ≠ .list xs) →
      validate_story_data (.obj kvs) = false) ∧
    validate_story_data (.obj [("title", .str "t"), ("concept", .str "c"),
      ("scenes", .list [.obj [("scene_number", .int 1), ("location", .str "l"),
        ("characters", .list []), ("dialogue", .str "d"), ("action", .str "a"),
        ("educational_point", .str "e"),
        ("visual_description", .str "v")]])]) = true := by
  refine ⟨?_, ?_, ?_, by decide⟩
  · intro kvs h
    simp [validate_story_data, required_fields, h]
  · intro kvs scenes skvs hs hmem hedu
    rw [validate_story_data]
    by_cases hall : required_fields.all (fun f => hasKey f kvs) = true
    · rw [if_pos hall]
      simp only [getKeyD, hs, Option.getD_some]
      have hscene : validScene (.obj skvs) = false := by
        simp [validScene, required_scene_fields, hedu]
      by_cases hall2 : scenes.all validScene = true
      · exact absurd (List.all_eq_true.mp hall2 _ hmem) (by simp [hscene])
      · simp [Bool.not_eq_true] at hall2
        simp [hall2]
    · rw [if_neg hall]
  · intro kvs scenes skvs v hs hmem hch hnl
    rw [validate_story_data]
    by_cases hall : required_fields.all (fun f => hasKey f kvs) = true
    · rw [if_pos hall]
      simp only [getKeyD, hs, Option.getD_some]
      have hscene : validScene (.obj skvs) = false := by
        rw [validScene, hch]
        cases v with
        | list xs => exact absurd rfl (hnl xs)
        | str s => simp
        | int n => simp
        | bool b => simp
        | null => simp
        | obj o => simp
      by_cases hall2 : scenes.all validScene = true
      · exact absurd (List.all_eq_true.mp hall2 _ hmem) (by simp [hscene])
      · simp [Bool.not_eq_true] at hall2
        simp [hall2]
    · rw [if_neg hall]

/-- C4 witness: the three rejection conjuncts at concrete inputs; the
acceptance conjunct is already closed. -/
theorem C4_validate_story_data_spec_witness :
    validate_story_data (.obj [("title", JValue.str "t")]) = false ∧
    validate_story_data (.obj [("title", JValue.str "t"),
      ("concept", JValue.str "c"),
      ("scenes", JValue.list [.obj [("location", JValue.str "l")]])]) = false ∧
    validate_story_data (.obj [("title", JValue.str "t"),
      ("concept", JValue.str "c"),
      ("scenes", JValue.list [.obj [("characters", JValue.str "notalist")]])]) =
      false :=
  ⟨C4_validate_story_data_spec.1 _ (by decide),
   C4_validate_story_data_spec.2.1 _
     [JValue.obj [("location", JValue.str "l")]] [("location", JValue.str "l")]
     rfl (by simp) (by decide),
   C4_validate_story_data_spec.2.2.1 _
     [JValue.obj [("characters", JValue.str "notalist")]]
     [("characters", JValue.str "notalist")]
     (JValue.str "notalist") rfl (by simp) rfl
     (fun xs h => by simp at h)⟩

/-- C5 counterexample: a payload with title, concept and a fully valid scene
list but no `target_age` field is accepted by `validate_story_data`, although
the claim says validation rejects every payload lacking `target_age`. -/
theorem C5_counterexample :
    hasKey "target_age" [("title", JValue.str "t"), ("concept", JValue.str "c"),
      ("scenes", JValue.list [.obj [("scene_number", JValue.int 1),
        ("location", JValue.str "l"), ("characters", JValue.list []),
        ("dialogue", JValue.str "d"), ("action", JValue.str "a"),
        ("educational_point", JValue.str "e"),
        ("visual_description", JValue.str "v")]])] = false ∧
    validate_story_data (.obj [("title", JValue.str "t"),
      ("concept", JValue.str "c"),
      ("scenes", JValue.list [.obj [("scene_number", JValue.int 1),
        ("location", JValue.str "l"), ("characters", JValue.list []),
        ("dialogue", JValue.str "d"), ("action", JValue.str "a"),
        ("educational_point", JValue.str "e"),
        ("visual_description", JValue.str "v")]])]) = true := by
  constructor
  · decide
  · decide

/-- C5 amended: validation rejects payloads missing `title`, `concept` or
`scenes` and payloads whose scene list is empty, but it does not check
`target_age`: any otherwise-valid payload without `target_age` is accepted. -/
theorem C5_required_top_level_fields :
    (∀ kvs : List (String × JValue), hasKey "title" kvs = false →
      validate_story_data (.obj kvs) = false) ∧
    (∀ kvs : List (String × JValue), hasKey "concept" kvs = false →
      validate_story_data (.obj kvs) = false) ∧
    (∀ kvs : List (String × JValue), hasKey "scenes" kvs = false →
      validate_story_data (.obj kvs) = false) ∧
    (∀ kvs : List (String × JValue), getKey "scenes" kvs = some (.list []) →
      validate_story_data (.obj kvs) = false) ∧
    (∀ (kvs : List (String × JValue)) (scenes : List JValue),
      hasKey "title" kvs = true → hasKey "concept" kvs = true →
      getKey "scenes" kvs = some (.list scenes) → scenes ≠ [] →
      (∀ s ∈ scenes, validScene s = true) →
      validate_story_data (.obj kvs) = true) := by
  refine ⟨?_, ?_, ?_, ?_, ?_⟩
  · intro kvs h
    simp [validate_story_data, required_fields, h]
  · intro kvs h
    simp [validate_story_data, required_fields, h]
  · intro kvs h
    simp [validate_story_data, required_fields, h]
  · intro kvs h
    rw [validate_story_data]
    by_cases hall : required_fields.all (fun f => hasKey f kvs) = true
    · rw [if_pos hall]
      simp [getKeyD, h]
    · rw [if_neg hall]
  · intro kvs scenes htitle hconcept hs hne hall
    have hsk := getKey_hasKey "scenes" kvs _ hs
    rw [validate_story_data]
    rw [if_pos (by simp [required_fields, htitle, hconcept, hsk])]
    simp only [getKeyD, hs, Option.getD_some]
    simp [List.all_eq_true.mpr hall, hne]

/-- C5 amended witness: the concrete no-target-age payload is accepted, and a
payload missing `title` is rejected. -/
theorem C5_required_top_level_fields_witness :
    validate_story_data (.obj [("concept", JValue.str "c")]) = false ∧
    validate_story_data (.obj [("title", JValue.str "t"),
      ("concept", JValue.str "c"),
      ("scenes", JValue.list [.obj [("scene_number", JValue.int 1),
        ("location", JValue.str "l"), ("characters", JValue.list []),
        ("dialogue", JValue.str "d"), ("action", JValue.str "a"),
        ("educational_point", JValue.str "e"),
        ("visual_description", JValue.str "v")]])]) = true :=
  ⟨C5_required_top_level_fields.1 _ (by decide),
   C5_required_top_level_fields.2.2.2.2 _
     [JValue.obj [("scene_number", JValue.int 1),
       ("location", JValue.str "l"), ("characters", JValue.list []),
       ("dialogue", JValue.str "d"), ("action", JValue.str "a"),
       ("educational_point", JValue.str "e"),
       ("visual_description", JValue.str "v")]]
     (by decide) (by decide) rfl
     (by simp) (by intro s hs; simp at hs; subst hs; decide)⟩

/-- C2: for a story dict with N ≥ 1 scenes and any image sequence of length
N, the compositors return a canvas of width `panel_width + 2*padding` whose
height is `title_height + N*(panel_height+padding)` plus the fixed padding
constant of each variant (`2*padding` for the enhanced layout, `padding` for
app.py), for every image content — the dimensions depend on N alone. -/
theorem C2_canvas_dimensions (kvs : List (String × JValue)) (scenes : List JValue)
    (images : List (Option PILImage)) (N : Nat) (t : String) (hN : 1 ≤ N)
    (hs : getKey "scenes" kvs = some (.list scenes)) (hlen : scenes.length = N)
    (himgs : images.length = N) (ht : EnhancedWebtoonGenerator.titleOf kvs = .ok t) :
    (∃ c, EnhancedWebtoonGenerator.create_enhanced_webtoon_layout kvs images =
        .ok (some c) ∧
      c.width = WEBTOON_CONFIG.panel_width + 2 * WEBTOON_CONFIG.padding ∧
      c.height = WEBTOON_CONFIG.title_height +
        N * (WEBTOON_CONFIG.panel_height + WEBTOON_CONFIG.padding) +
        2 * WEBTOON_CONFIG.padding) ∧
    (∃ c2, WebtoonGenerator.create_webtoon_layout (some kvs) images = .ok (some c2) ∧
      c2.width = WEBTOON_CONFIG.panel_width + 2 * WEBTOON_CONFIG.padding ∧
      c2.height = WEBTOON_CONFIG.title_height +
        N * (WEBTOON_CONFIG.panel_height + WEBTOON_CONFIG.padding) +
        WEBTOON_CONFIG.padding) := by
  have himg_ne : images ≠ [] := by
    intro h; subst h; simp at himgs; omega
  have hsc_ne : scenes ≠ [] := by
    intro h; subst h; simp at hlen; omega
  constructor
  · refine ⟨_, EnhancedWebtoonGenerator.create_enhanced_webtoon_layout_eq
      kvs scenes images t hs ht himg_ne, ?_, ?_⟩
    · rw [EnhancedWebtoonGenerator.pasteScenes_width, drawText_width]
      rfl
    · rw [EnhancedWebtoonGenerator.pasteScenes_height, drawText_height]
      rw [show (PILImage.canvas
        (WEBTOON_CONFIG.panel_width + 2 * WEBTOON_CONFIG.padding)
        (WEBTOON_CONFIG.title_height +
          (WEBTOON_CONFIG.panel_height + WEBTOON_CONFIG.padding) * scenes.length +
          WEBTOON_CONFIG.padding * 2) "white" [] []).height =
        WEBTOON_CONFIG.title_height +
          (WEBTOON_CONFIG.panel_height + WEBTOON_CONFIG.padding) * scenes.length +
          WEBTOON_CONFIG.padding * 2 from rfl, hlen]
      ring
  · refine ⟨_, WebtoonGenerator.create_webtoon_layout_eq
      kvs scenes images hs hsc_ne himg_ne, ?_, ?_⟩
    · rw [WebtoonGenerator.pasteOptScenes_width]
      simp [WEBTOON_CONFIG, PILImage.width]
    · rw [WebtoonGenerator.pasteOptScenes_height]
      rw [show (PILImage.canvas (800 + 2 * 20)
        (100 + (600 + 20) * scenes.length + 20) "white" [] []).height =
        100 + (600 + 20) * scenes.length + 20 from rfl, hlen]
      simp [WEBTOON_CONFIG]
      ring

/-- C2 witness: the end-to-end scenario of the spec — 3 scenes, 3 placeholder
(absent) images. -/
theorem C2_canvas_dimensions_witness :
    getKey "scenes" [("title", JValue.str "T"),
      ("scenes", JValue.list [.null, .null, .null])] =
      some (.list [.null, .null, .null]) ∧
    (∃ c, EnhancedWebtoonGenerator.create_enhanced_webtoon_layout
        [("title", JValue.str "T"), ("scenes", JValue.list [.null, .null, .null])]
        [none, none, none] = .ok (some c) ∧
      c.width = WEBTOON_CONFIG.panel_width + 2 * WEBTOON_CONFIG.padding ∧
      c.height = WEBTOON_CONFIG.title_height +
        3 * (WEBTOON_CONFIG.panel_height + WEBTOON_CONFIG.padding) +
        2 * WEBTOON_CONFIG.padding) ∧
    (∃ c2, WebtoonGenerator.create_webtoon_layout
        (some [("title", JValue.str "T"),
          ("scenes", JValue.list [.null, .null, .null])])
        [none, none, none] = .ok (some c2) ∧
      c2.width = WEBTOON_CONFIG.panel_width + 2 * WEBTOON_CONFIG.padding ∧
      c2.height = WEBTOON_CONFIG.title_height +
        3 * (WEBTOON_CONFIG.panel_height + WEBTOON_CONFIG.padding) +
        WEBTOON_CONFIG.padding) :=
  ⟨rfl, C2_canvas_dimensions _ [.null, .null, .null] [none, none, none] 3 "T"
    (by omega) rfl rfl rfl rfl⟩

/-- C3 counterexample: with a present-but-empty scenes list and a non-empty
image sequence, the enhanced compositor does not return the absent value —
the claim says it returns None whenever the scenes list is empty. -/
theorem C3_counterexample :
    EnhancedWebtoonGenerator.create_enhanced_webtoon_layout
      [("scenes", JValue.list [])] [some (PILImage.external 0 8 8)] ≠
      Except.ok none := by
  rw [EnhancedWebtoonGenerator.create_enhanced_webtoon_layout_eq
    [("scenes", JValue.list [])] [] [some (PILImage.external 0 8 8)]
    "Educational Webtoon" rfl rfl (by simp)]
  intro h
  exact Option.noConfusion (Except.ok.inj h)

/-- C3 amended: app.py's `create_webtoon_layout` returns None whenever the
story dict is absent, the scenes value is falsy (missing or an empty list),
or the image sequence is empty; the enhanced variant returns None when the
dict lacks the `scenes` key or the image sequence is empty, but with a
present empty scenes list and non-empty images it instead returns an
empty-paneled canvas of height `title_height + 2*padding`. -/
theorem C3_empty_inputs (kvs : List (String × JValue)) :
    (∀ images, WebtoonGenerator.create_webtoon_layout none images = .ok none) ∧
    (∀ images, (getKeyD "scenes" kvs .null).isTruthy = false →
      WebtoonGenerator.create_webtoon_layout (some kvs) images = .ok none) ∧
    (∀ sd, WebtoonGenerator.create_webtoon_layout sd [] = .ok none) ∧
    (∀ images, hasKey "scenes" kvs = false →
      EnhancedWebtoonGenerator.create_enhanced_webtoon_layout kvs images = .ok none) ∧
    EnhancedWebtoonGenerator.create_enhanced_webtoon_layout kvs [] = .ok none ∧
    (∀ images t, getKey "scenes" kvs = some (.list []) →
      EnhancedWebtoonGenerator.titleOf kvs = .ok t → images ≠ [] →
      ∃ c, EnhancedWebtoonGenerator.create_enhanced_webtoon_layout kvs images =
        .ok (some c) ∧ c.pasteLog = [] ∧
        c.height = WEBTOON_CONFIG.title_height + 2 * WEBTOON_CONFIG.padding) := by
  refine ⟨fun images => rfl, ?_, ?_, ?_, ?_, ?_⟩
  · intro images h
    rw [WebtoonGenerator.create_webtoon_layout]
    rw [if_pos (by simp [h])]
  · intro sd
    cases sd with
    | none => rfl
    | some kvs2 =>
      rw [WebtoonGenerator.create_webtoon_layout]
      rw [if_pos (by simp)]
  · intro images h
    rw [EnhancedWebtoonGenerator.create_enhanced_webtoon_layout]
    rw [if_pos (by simp [h])]
  · rw [EnhancedWebtoonGenerator.create_enhanced_webtoon_layout]
    rw [if_pos (by simp)]
  · intro images t hs ht himg
    refine ⟨_, EnhancedWebtoonGenerator.create_enhanced_webtoon_layout_eq
      kvs [] images t hs ht himg, ?_, ?_⟩
    · rw [show ([] : List JValue).zip images = [] from rfl]
      rfl
    · rw [show ([] : List JValue).zip images = [] from rfl]
      rw [show EnhancedWebtoonGenerator.pasteScenes
        ((PILImage.canvas (WEBTOON_CONFIG.panel_width + 2 * WEBTOON_CONFIG.padding)
          (WEBTOON_CONFIG.title_height +
            (WEBTOON_CONFIG.panel_height + WEBTOON_CONFIG.padding) *
              ([] : List JValue).length + WEBTOON_CONFIG.padding * 2)
          "white" [] []).drawText t "black")
        (WEBTOON_CONFIG.title_height + WEBTOON_CONFIG.padding) 0 [] =
        (PILImage.canvas (WEBTOON_CONFIG.panel_width + 2 * WEBTOON_CONFIG.padding)
          (WEBTOON_CONFIG.title_height +
            (WEBTOON_CONFIG.panel_height + WEBTOON_CONFIG.padding) *
              ([] : List JValue).length + WEBTOON_CONFIG.padding * 2)
          "white" [] []).drawText t "black" from rfl]
      rw [drawText_height]
      simp [WEBTOON_CONFIG, PILImage.height]

/-- C3 amended witness: concrete instances of the None cases and of the
empty-scenes canvas. -/
theorem C3_empty_inputs_witness :
    WebtoonGenerator.create_webtoon_layout (some [("scenes", JValue.list [])])
      [some (PILImage.external 1 4 4)] = .ok none ∧
    (∃ c, EnhancedWebtoonGenerator.create_enhanced_webtoon_layout
      [("scenes", JValue.list [])] [some (PILImage.external 1 4 4)] =
        .ok (some c) ∧ c.pasteLog = [] ∧
      c.height = WEBTOON_CONFIG.title_height + 2 * WEBTOON_CONFIG.padding) :=
  ⟨(C3_empty_inputs [("scenes", JValue.list [])]).2.1 _ (by decide),
   (C3_empty_inputs [("scenes", JValue.list [])]).2.2.2.2.2 _ "Educational Webtoon"
     rfl rfl (by simp)⟩

/-- C9 (implicit): the enhanced compositor tolerates an absent (None) entry
at position i of the image sequence: it still returns a canvas, never
raising, and pastes the deterministic placeholder
`create_error_image(panel_width, panel_height, "Scene i+1")` — captioned with
the 1-indexed scene number — at slot i's position
`(padding, title_height + padding + i*(panel_height+padding))`. -/
theorem C9_none_entry_gets_placeholder (kvs : List (String × JValue))
    (scenes : List JValue) (images : List (Option PILImage)) (i : Nat) (t : String)
    (hs : getKey "scenes" kvs = some (.list scenes))
    (ht : EnhancedWebtoonGenerator.titleOf kvs = .ok t)
    (hi : images[i]? = some none) (hlen : i < scenes.length) :
    ∃ c, EnhancedWebtoonGenerator.create_enhanced_webtoon_layout kvs images =
      .ok (some c) ∧
    c.pasteLog[i]? = some (create_error_image WEBTOON_CONFIG.panel_width
        WEBTOON_CONFIG.panel_height ("Scene " ++ toString (i + 1)),
      (WEBTOON_CONFIG.padding, WEBTOON_CONFIG.title_height + WEBTOON_CONFIG.padding
        + i * (WEBTOON_CONFIG.panel_height + WEBTOON_CONFIG.padding))) := by
  have himg_ne : images ≠ [] := by
    intro h
    subst h
    simp at hi
  refine ⟨_, EnhancedWebtoonGenerator.create_enhanced_webtoon_layout_eq
    kvs scenes images t hs ht himg_ne, ?_⟩
  rw [show ((PILImage.canvas (WEBTOON_CONFIG.panel_width + 2 * WEBTOON_CONFIG.padding)
    (WEBTOON_CONFIG.title_height +
      (WEBTOON_CONFIG.panel_height + WEBTOON_CONFIG.padding) * scenes.length +
      WEBTOON_CONFIG.padding * 2) "white" [] []).drawText t "black") =
    PILImage.canvas (WEBTOON_CONFIG.panel_width + 2 * WEBTOON_CONFIG.padding)
      (WEBTOON_CONFIG.title_height +
        (WEBTOON_CONFIG.panel_height + WEBTOON_CONFIG.padding) * scenes.length +
        WEBTOON_CONFIG.padding * 2) "white" [(t, "black")] [] from rfl]
  rw [EnhancedWebtoonGenerator.pasteScenes_pasteLog, List.nil_append,
    EnhancedWebtoonGenerator.slotPastes_getElem]
  have hz : (scenes.zip images)[i]? = some (scenes.get ⟨i, hlen⟩, none) := by
    rw [List.getElem?_zip_eq_some]
    exact ⟨by simp [List.getElem?_eq_getElem hlen], hi⟩
  rw [hz]
  simp only [Option.map_some', Nat.zero_add]
  rw [show EnhancedWebtoonGenerator.slotImage i
      ((scenes.get ⟨i, hlen⟩, (none : Option PILImage)).2) =
    create_error_image WEBTOON_CONFIG.panel_width WEBTOON_CONFIG.panel_height
      ("Scene " ++ toString (i + 1)) from rfl]

/-- C9 witness: one scene, one absent image. -/
theorem C9_none_entry_gets_placeholder_witness :
    ∃ c, EnhancedWebtoonGenerator.create_enhanced_webtoon_layout
      [("scenes", JValue.list [.null])] [none] = .ok (some c) ∧
    c.pasteLog[0]? = some (create_error_image WEBTOON_CONFIG.panel_width
        WEBTOON_CONFIG.panel_height ("Scene " ++ toString (0 + 1)),
      (WEBTOON_CONFIG.padding, WEBTOON_CONFIG.title_height + WEBTOON_CONFIG.padding
        + 0 * (WEBTOON_CONFIG.panel_height + WEBTOON_CONFIG.padding))) :=
  C9_none_entry_gets_placeholder [("scenes", JValue.list [.null])] [.null] [none] 0
    "Educational Webtoon" rfl rfl rfl (by simp)

/-- C10 (implicit): neither compositor checks that the image sequence length
matches the scene count.  For any non-empty scenes list and non-empty image
sequence of any length, the enhanced canvas height is computed from the
number of scenes alone, exactly the first `min(#scenes, #images)` slots are
pasted (at their slot positions), and the remaining slots stay blank; with
all images present, app.py behaves the same with its own height constant. -/
theorem C10_no_length_check (kvs : List (String × JValue)) (scenes : List JValue)
    (images : List (Option PILImage)) (t : String)
    (hs : getKey "scenes" kvs = some (.list scenes))
    (ht : EnhancedWebtoonGenerator.titleOf kvs = .ok t)
    (hsc : scenes ≠ []) (himg : images ≠ []) :
    (∃ c, EnhancedWebtoonGenerator.create_enhanced_webtoon_layout kvs images =
        .ok (some c) ∧
      c.height = WEBTOON_CONFIG.title_height +
        scenes.length * (WEBTOON_CONFIG.panel_height + WEBTOON_CONFIG.padding) +
        2 * WEBTOON_CONFIG.padding ∧
      c.pasteLog.length = min scenes.length images.length ∧
      (∀ j, j < min scenes.length images.length →
        ∃ im, c.pasteLog[j]? = some (im,
          (WEBTOON_CONFIG.padding, WEBTOON_CONFIG.title_height +
            WEBTOON_CONFIG.padding +
            j * (WEBTOON_CONFIG.panel_height + WEBTOON_CONFIG.padding))))) ∧
    ((∀ o ∈ images, o.isSome = true) →
      ∃ c2, WebtoonGenerator.create_webtoon_layout (some kvs) images =
        .ok (some c2) ∧
      c2.height = WEBTOON_CONFIG.title_height +
        scenes.length * (WEBTOON_CONFIG.panel_height + WEBTOON_CONFIG.padding) +
        WEBTOON_CONFIG.padding ∧
      c2.pasteLog.length = min scenes.length images.length ∧
      (∀ j, j < min scenes.length images.length →
        ∃ im, c2.pasteLog[j]? = some (im,
          (WEBTOON_CONFIG.padding, WEBTOON_CONFIG.padding +
            j * (WEBTOON_CONFIG.panel_height + WEBTOON_CONFIG.padding))))) := by
  constructor
  · refine ⟨_, EnhancedWebtoonGenerator.create_enhanced_webtoon_layout_eq
      kvs scenes images t hs ht himg, ?_, ?_, ?_⟩
    · rw [EnhancedWebtoonGenerator.pasteScenes_height, drawText_height]
      rw [show (PILImage.canvas
        (WEBTOON_CONFIG.panel_width + 2 * WEBTOON_CONFIG.padding)
        (WEBTOON_CONFIG.title_height +
          (WEBTOON_CONFIG.panel_height + WEBTOON_CONFIG.padding) * scenes.length +
          WEBTOON_CONFIG.padding * 2) "white" [] []).height =
        WEBTOON_CONFIG.title_height +
          (WEBTOON_CONFIG.panel_height + WEBTOON_CONFIG.padding) * scenes.length +
          WEBTOON_CONFIG.padding * 2 from rfl]
      ring_nf
    · rw [show ((PILImage.canvas
        (WEBTOON_CONFIG.panel_width + 2 * WEBTOON_CONFIG.padding)
        (WEBTOON_CONFIG.title_height +
          (WEBTOON_CONFIG.panel_height + WEBTOON_CONFIG.padding) * scenes.length +
          WEBTOON_CONFIG.padding * 2) "white" [] []).drawText t "black") =
        PILImage.canvas (WEBTOON_CONFIG.panel_width + 2 * WEBTOON_CONFIG.padding)
          (WEBTOON_CONFIG.title_height +
            (WEBTOON_CONFIG.panel_height + WEBTOON_CONFIG.padding) * scenes.length +
            WEBTOON_CONFIG.padding * 2) "white" [(t, "black")] [] from rfl]
      rw [EnhancedWebtoonGenerator.pasteScenes_pasteLog, List.nil_append,
        EnhancedWebtoonGenerator.slotPastes_length, List.length_zip]
    · intro j hj
      rw [show ((PILImage.canvas
        (WEBTOON_CONFIG.panel_width + 2 * WEBTOON_CONFIG.padding)
        (WEBTOON_CONFIG.title_height +
          (WEBTOON_CONFIG.panel_height + WEBTOON_CONFIG.padding) * scenes.length +
          WEBTOON_CONFIG.padding * 2) "white" [] []).drawText t "black") =
        PILImage.canvas (WEBTOON_CONFIG.panel_width + 2 * WEBTOON_CONFIG.padding)
          (WEBTOON_CONFIG.title_height +
            (WEBTOON_CONFIG.panel_height + WEBTOON_CONFIG.padding) * scenes.length +
            WEBTOON_CONFIG.padding * 2) "white" [(t, "black")] [] from rfl]
      rw [EnhancedWebtoonGenerator.pasteScenes_pasteLog, List.nil_append,
        EnhancedWebtoonGenerator.slotPastes_getElem]
      have hjz : j < (scenes.zip images).length := by
        rw [List.length_zip]
        omega
      refine ⟨EnhancedWebtoonGenerator.slotImage (0 + j)
        ((scenes.zip images).get ⟨j, hjz⟩).2, ?_⟩
      rw [List.getElem?_eq_getElem hjz]
      simp only [Option.map_some', Nat.zero_add]
      rfl
  · intro hall
    refine ⟨_, WebtoonGenerator.create_webtoon_layout_eq kvs scenes images
      hs hsc himg, ?_, ?_, ?_⟩
    · rw [WebtoonGenerator.pasteOptScenes_height]
      rw [show (PILImage.canvas (800 + 2 * 20)
        (100 + (600 + 20) * scenes.length + 20) "white" [] []).height =
        100 + (600 + 20) * scenes.length + 20 from rfl]
      simp [WEBTOON_CONFIG]
      ring_nf
    · rw [WebtoonGenerator.pasteOptScenes_pasteLog, List.nil_append,
        WebtoonGenerator.appSlotPastes_length _
          (fun p hp => hall p.2 (List.of_mem_zip hp).2),
        List.length_zip]
    · intro j hj
      rw [WebtoonGenerator.pasteOptScenes_pasteLog, List.nil_append]
      obtain ⟨im, him⟩ := WebtoonGenerator.appSlotPastes_pos (scenes.zip images)
        (fun p hp => hall p.2 (List.of_mem_zip hp).2) 20 j
        (by rw [List.length_zip]; omega)
      refine ⟨im, ?_⟩
      rw [him]
      simp [WEBTOON_CONFIG]

/-- C10 witness: 2 scenes with 1 image (all present). -/
theorem C10_no_length_check_witness :
    (∃ c, EnhancedWebtoonGenerator.create_enhanced_webtoon_layout
        [("scenes", JValue.list [.null, .null])] [some (PILImage.external 9 5 5)] =
        .ok (some c) ∧
      c.height = WEBTOON_CONFIG.title_height +
        2 * (WEBTOON_CONFIG.panel_height + WEBTOON_CONFIG.padding) +
        2 * WEBTOON_CONFIG.padding ∧
      c.pasteLog.length = min 2 1 ∧
      (∀ j, j < min 2 1 →
        ∃ im, c.pasteLog[j]? = some (im,
          (WEBTOON_CONFIG.padding, WEBTOON_CONFIG.title_height +
            WEBTOON_CONFIG.padding +
            j * (WEBTOON_CONFIG.panel_height + WEBTOON_CONFIG.padding))))) ∧
    ((∀ o ∈ ([some (PILImage.external 9 5 5)] : List (Option PILImage)),
        o.isSome = true) →
      ∃ c2, WebtoonGenerator.create_webtoon_layout
        (some [("scenes", JValue.list [.null, .null])])
        [some (PILImage.external 9 5 5)] = .ok (some c2) ∧
      c2.height = WEBTOON_CONFIG.title_height +
        2 * (WEBTOON_CONFIG.panel_height + WEBTOON_CONFIG.padding) +
        WEBTOON_CONFIG.padding ∧
      c2.pasteLog.length = min 2 1 ∧
      (∀ j, j < min 2 1 →
        ∃ im, c2.pasteLog[j]? = some (im,
          (WEBTOON_CONFIG.padding, WEBTOON_CONFIG.padding +
            j * (WEBTOON_CONFIG.panel_height + WEBTOON_CONFIG.padding))))) :=
  C10_no_length_check [("scenes", JValue.list [.null, .null])] [.null, .null]
    [some (PILImage.external 9 5 5)] "Educational Webtoon" rfl rfl
    (by simp) (by simp)

theorem scene_file_names (images : List (Option PILImage))
    (hall : ∀ o ∈ images, o.isSome = true) :
    ∀ n : Nat, ((images.enumFrom n).filterMap (fun p =>
        match p.2 with
        | some img => some ("scene_" ++ toString (p.1 + 1) ++ ".png", FileData.png img)
        | none => none)).map Prod.fst =
      (List.range' (n + 1) images.length).map
        (fun j => "scene_" ++ toString j ++ ".png") := by
  induction images with
  | nil => intro n; rfl
  | cons o rest ih =>
    intro n
    cases o with
    | none => exact absurd (hall none (by simp)) (by simp)
    | some img =>
      rw [List.enumFrom_cons]
      simp only [List.filterMap_cons, List.map_cons, List.length_cons]
      rw [ih (fun q hq => hall q (by simp [hq])) (n + 1)]
      rw [List.range'_succ]
      simp

/-- C8: persisting a story with `save_generated_content` writes
`story_data.json` whose content, re-parsed with the embedded `json.load`,
equals the original value field for field; and the per-scene image files are
named `scene_<i>.png` by 1-indexed scene position. -/
theorem C8_save_content_roundtrip (story : JValue) (images : List (Option PILImage))
    (ts : String) (hall : ∀ o ∈ images, o.isSome = true) :
    (∃ doc, (save_generated_content story images ts).files.head? =
        some ("story_data.json", .jsonText doc) ∧ json_loads doc = some story) ∧
    (save_generated_content story images ts).files.map Prod.fst =
      "story_data.json" :: (List.range' 1 images.length).map
        (fun j => "scene_" ++ toString j ++ ".png") := by
  constructor
  · exact ⟨serValue story 0, rfl, json_loads_serValue story⟩
  · rw [save_generated_content]
    simp only [List.map_cons]
    congr 1
    have h := scene_file_names images hall 0
    simpa using h

/-- C8 witness: a one-field story with one present image. -/
theorem C8_save_content_roundtrip_witness :
    (∃ doc, (save_generated_content (.obj [("title", JValue.str "x")])
        [some (PILImage.external 0 1 1)] "t").files.head? =
        some ("story_data.json", .jsonText doc) ∧
      json_loads doc = some (.obj [("title", JValue.str "x")])) ∧
    (save_generated_content (.obj [("title", JValue.str "x")])
        [some (PILImage.external 0 1 1)] "t").files.map Prod.fst =
      "story_data.json" ::
        (List.range' 1 ([some (PILImage.external 0 1 1)] :
          List (Option PILImage)).length).map
          (fun j => "scene_" ++ toString j ++ ".png") :=
  C8_save_content_roundtrip (.obj [("title", JValue.str "x")])
    [some (PILImage.external 0 1 1)] "t" (by simp)

